import Mathlib

/-
Verification of the VR (meal-voucher) benefit pipeline of joaovzanetti/agente-vr.

The development shallowly embeds the core of the repository:
  src/utils.py    : normalize_cols, strip_accents_upper, infer_estado_from_sindicato
  src/steps.py    : carregar_bases, montar_base_elegiveis, gerar_validacoes, exportar_planilha
  src/agent_vr.py : REQUIRED_FILES_HINTS, validate_input_dir, aplicar_80_20_no_arquivo,
                    gerar_vr_mensal_tool, validar_conformidade_tool

Modelling conventions, fixed once for the whole file:
  - A pandas DataFrame is a Table: a list of column names plus rows, each row a
    positional list of cell values, exactly as a spreadsheet is rectangular data.
  - Cell values (Val) are exact rationals, text, or the missing marker na (NaN).
    Python float arithmetic is modelled by exact rational arithmetic; every
    numeric fact proved below is about the modelled rationals.
  - pd.to_numeric(errors = coerce): a num cell is itself, na is missing, and a
    text cell is non-numeric text, coerced to missing.  Numeric-looking strings
    are represented as num cells in this model, not as text.
  - Operations that raise in Python (KeyError on a missing column selection,
    TypeError on arithmetic with text) are embedded in Except, with the error
    message recording which Python exception the source would raise.
  - Workbooks are ordered lists of (sheet name, Table).  Writing with
    if_sheet_exists = replace rewrites the sheet of that name in place (pandas
    recreates the sheet at its original index) or appends it at the end when no
    sheet of that name exists.
  - The filesystem seen by ingestion is Option (List (filename, Table)):
    none models a directory that does not exist, some files an existing
    directory already parsed into tables.  glob(*.xlsx) keeps the files whose
    name ends in .xlsx; a missing directory yields no files and no error.
  - pd.Timestamp values in Contexto are opaque ticks, modelled as integers.
-/

namespace VRSpec

/-- Cell value of a spreadsheet table: an exact rational number, a piece of
text, or the missing marker (NaN / empty cell). -/
inductive Val where
  | num (q : ℚ)
  | str (s : String)
  | na
deriving DecidableEq

/-- Python substring test over character lists: needle occurs contiguously. -/
def listSub (needle : List Char) : List Char → Bool
  | [] => needle.isEmpty
  | c :: cs => needle.isPrefixOf (c :: cs) || listSub needle cs

/-- Python infix operator in for strings: strContains n h decides n occurs in h. -/
def strContains (needle hay : String) : Bool :=
  listSub needle.toList hay.toList

/-- Suffix test over characters: Python str.endswith, also the effect of the
glob pattern star-dot-xlsx on a filename. -/
def strEndsWith (s suffix : String) : Bool :=
  suffix.toList.isSuffixOf s.toList

/-- Accent stripping for one character, the effect of NFKD decomposition
followed by dropping combining marks, on the Latin accented letters that occur
in this repository's data (Portuguese diacritics); other characters unchanged. -/
def deaccChar (c : Char) : Char :=
  match c with
  | 'á' | 'à' | 'â' | 'ã' | 'ä' => 'a'
  | 'é' | 'è' | 'ê' | 'ë' => 'e'
  | 'í' | 'ì' | 'î' | 'ï' => 'i'
  | 'ó' | 'ò' | 'ô' | 'õ' | 'ö' => 'o'
  | 'ú' | 'ù' | 'û' | 'ü' => 'u'
  | 'ç' => 'c'
  | 'Á' | 'À' | 'Â' | 'Ã' | 'Ä' => 'A'
  | 'É' | 'È' | 'Ê' | 'Ë' => 'E'
  | 'Í' | 'Ì' | 'Î' | 'Ï' => 'I'
  | 'Ó' | 'Ò' | 'Ô' | 'Õ' | 'Ö' => 'O'
  | 'Ú' | 'Ù' | 'Û' | 'Ü' => 'U'
  | 'Ç' => 'C'
  | c => c

/-- Python str.upper on one character, over ASCII and the accented letters of
the modelled domain. -/
def upChar (c : Char) : Char :=
  match c with
  | 'á' => 'Á' | 'à' => 'À' | 'â' => 'Â' | 'ã' => 'Ã' | 'ä' => 'Ä'
  | 'é' => 'É' | 'è' => 'È' | 'ê' => 'Ê' | 'ë' => 'Ë'
  | 'í' => 'Í' | 'ì' => 'Ì' | 'î' => 'Î' | 'ï' => 'Ï'
  | 'ó' => 'Ó' | 'ò' => 'Ò' | 'ô' => 'Ô' | 'õ' => 'Õ' | 'ö' => 'Ö'
  | 'ú' => 'Ú' | 'ù' => 'Ù' | 'û' => 'Û' | 'ü' => 'Ü'
  | 'ç' => 'Ç'
  | c => if 'a' ≤ c ∧ c ≤ 'z' then Char.ofNat (c.toNat - 32) else c

/-- Python str.lower on one character, over ASCII and the accented letters of
the modelled domain. -/
def lowChar (c : Char) : Char :=
  match c with
  | 'Á' => 'á' | 'À' => 'à' | 'Â' => 'â' | 'Ã' => 'ã' | 'Ä' => 'ä'
  | 'É' => 'é' | 'È' => 'è' | 'Ê' => 'ê' | 'Ë' => 'ë'
  | 'Í' => 'í' | 'Ì' => 'ì' | 'Î' => 'î' | 'Ï' => 'ï'
  | 'Ó' => 'ó' | 'Ò' => 'ò' | 'Ô' => 'ô' | 'Õ' => 'õ' | 'Ö' => 'ö'
  | 'Ú' => 'ú' | 'Ù' => 'ù' | 'Û' => 'û' | 'Ü' => 'ü'
  | 'Ç' => 'ç'
  | c => if 'A' ≤ c ∧ c ≤ 'Z' then Char.ofNat (c.toNat + 32) else c

/-- Python str.upper. -/
def pyUpper (s : String) : String := String.mk (s.toList.map upChar)

/-- Python str.lower. -/
def pyLower (s : String) : String := String.mk (s.toList.map lowChar)

/-- Python str.strip: drop whitespace at both ends. -/
def trimChars (l : List Char) : List Char :=
  ((l.dropWhile Char.isWhitespace).reverse.dropWhile Char.isWhitespace).reverse

/-- Replacement of each maximal whitespace run by a single underscore, the
effect of re.sub(backslash-s-plus, underscore, s); prevWs records whether the
previous character was whitespace. -/
def squashWsAux (prevWs : Bool) : List Char → List Char
  | [] => []
  | c :: cs =>
    if c.isWhitespace then
      if prevWs then squashWsAux true cs else '_' :: squashWsAux true cs
    else c :: squashWsAux false cs

/-- Embeds utils.strip_accents_upper on actual strings (src/utils.py lines
24-30): NFKD-deaccent, uppercase, strip surrounding whitespace. -/
def strip_accents_upper (s : String) : String :=
  String.mk (trimChars (s.toList.map (fun c => upChar (deaccChar c))))

/-- Rendering of a non-string cell by Python str(); the exact digits of the
rendering are immaterial to every property proved below, only that it is a
deterministic function of the value. -/
def pyStrOfVal : Val → String
  | .num q => toString q
  | .str s => s
  | .na => "nan"

/-- Embeds utils.strip_accents_upper as applied to an arbitrary cell: a
non-string cell is returned as its str() rendering without normalization
(src/utils.py lines 26-27). -/
def sauVal (v : Val) : Val :=
  match v with
  | .str s => .str (strip_accents_upper s)
  | v => .str (pyStrOfVal v)

/-- Embeds utils.normalize_cols on one header (src/utils.py lines 6-22):
deaccent, uppercase, strip, collapse whitespace runs to a single underscore. -/
def normCol (s : String) : String :=
  String.mk (squashWsAux false (trimChars (s.toList.map (fun c => upChar (deaccChar c)))))

/-- Embeds utils.normalize_cols over a header list. -/
def normalize_cols (cols : List String) : List String := cols.map normCol

/-- Fixed list of region codes searched by region inference
(src/utils.py line 40), in source order. -/
def ufList : List String :=
  ["SP", "RJ", "MG", "RS", "PR", "SC", "BA", "PE", "GO", "DF", "ES", "MT", "MS", "PA", "AM", "CE"]

/-- First candidate of the list contained in s, else the sentinel; the shape of
the for-loop with early return in infer_estado_from_sindicato. -/
def firstContained (cands : List String) (s : String) : String :=
  match cands with
  | [] => "?"
  | u :: us => if strContains u s then u else firstContained us s

/-- Embeds utils.infer_estado_from_sindicato (src/utils.py lines 32-43): a
non-string cell gives the sentinel; otherwise the first region code of ufList
contained in the deaccented uppercased text, else the sentinel. -/
def infer_estado_from_sindicato (v : Val) : String :=
  match v with
  | .str s => firstContained ufList (strip_accents_upper s)
  | _ => "?"

/-- Coercion pd.to_numeric(errors = coerce) of one cell: numbers survive,
missing stays missing, non-numeric text becomes missing. -/
def toNumericCoerce : Val → Option ℚ
  | .num q => some q
  | .str _ => none
  | .na => none

/-- Coercion followed by fillna(0). -/
def fill0 (v : Val) : ℚ := (toNumericCoerce v).getD 0

/-- Executable absolute value on rationals, the Python abs. -/
def qabs (x : ℚ) : ℚ := if x < 0 then -x else x

/-- Executable maximum on rationals, the Python max. -/
def qmax (a b : ℚ) : ℚ := if a ≤ b then b else a

/-- Decides whether a cell is text (the cells on which Python numeric
arithmetic would raise TypeError). -/
def isStrCell : Val → Bool
  | .str _ => true
  | _ => false

/-- Element of a list at an index, with a default. -/
def nthD {α : Type} (d : α) : List α → Nat → α
  | [], _ => d
  | x :: _, 0 => x
  | _ :: xs, n + 1 => nthD d xs n

/-- Replacement of the element at an index; out-of-range indices leave the
list unchanged. -/
def setIdx {α : Type} : List α → Nat → α → List α
  | [], _, _ => []
  | _ :: xs, 0, v => v :: xs
  | x :: xs, n + 1, v => x :: setIdx xs n v

/-- Index of the first occurrence of a name in a header list. -/
def idxOf? (c : String) : List String → Option Nat
  | [] => none
  | x :: xs => if x = c then some 0 else (idxOf? c xs).map (· + 1)

/-- One spreadsheet row: the cell values in column order. -/
abbrev Row := List Val

/-- In-memory table: the embedding of a pandas DataFrame, column names plus
positional rows. -/
structure Table where
  cols : List String
  rows : List Row
deriving DecidableEq

/-- Default empty DataFrame, pd.DataFrame(). -/
def Table.emptyTable : Table := ⟨[], []⟩

/-- Embeds the pandas DataFrame.empty flag: true when either axis has length
zero. -/
def Table.isEmptyDf (t : Table) : Bool := t.rows.isEmpty || t.cols.isEmpty

/-- Rectangularity of a table, automatic for every table read from a
spreadsheet: each row has one cell per column. -/
def Table.wfB (t : Table) : Bool := t.rows.all (fun r => r.length == t.cols.length)

/-- Cell of a row at a named column; missing column reads as na. -/
def cell (cols : List String) (r : Row) (c : String) : Val :=
  match idxOf? c cols with
  | some i => nthD .na r i
  | none => .na

/-- Column assignment df[c] = f(row): overwrite in place when the column
exists, else append it on the right, the pandas semantics of assigning a
derived column. -/
def setCol (t : Table) (c : String) (f : Row → Val) : Table :=
  match idxOf? c t.cols with
  | some i => ⟨t.cols, t.rows.map (fun r => setIdx r i (f r))⟩
  | none => ⟨t.cols ++ [c], t.rows.map (fun r => r ++ [f r])⟩

/-- Lookup in a Python dict represented as an insertion-ordered association
list. -/
def dictGet {α : Type} (l : List (String × α)) (k : String) (d : α) : α :=
  match l.find? (fun p => p.1 == k) with
  | some p => p.2
  | none => d

/-- Assignment in a Python dict represented as an insertion-ordered
association list: overwrite in place when the key exists, else append. -/
def dictSet {α : Type} (l : List (String × α)) (k : String) (v : α) : List (String × α) :=
  if l.any (fun p => p.1 == k) then
    l.map (fun p => if p.1 == k then (k, v) else p)
  else l ++ [(k, v)]

/-- Workbook: the sheets of an xlsx file in order. -/
abbrev Workbook := List (String × Table)

/-- Directory content seen by ingestion: none when the directory does not
exist, otherwise the files it holds, already parsed. -/
abbrev Dir := Option (List (String × Table))

/-- Filename classification of ingestion (src/steps.py lines 39-44): the
if/elif chain over the uppercased basename. -/
def classifyRole (nome : String) : Option String :=
  if strContains "ATIVOS" nome then some "ATIVOS"
  else if strContains "FERIAS" nome || strContains "FÉRIAS" nome then some "FERIAS"
  else if strContains "DESLIGADOS" nome then some "DESLIGADOS"
  else none

/-- Embeds steps.carregar_bases (src/steps.py lines 27-45): glob the xlsx
files of the directory (a missing directory globs to nothing), normalize each
table's headers, and assign the table to the role its uppercased filename
hints at, later files overwriting earlier ones per role.  Files matching no
branch of the if/elif chain are skipped. -/
def carregar_bases (d : Dir) : List (String × Table) :=
  match d with
  | none => []
  | some files =>
    (files.filter (fun f => strEndsWith f.1 ".xlsx")).foldl
      (fun bases f =>
        match classifyRole (pyUpper f.1) with
        | some role => dictSet bases role ⟨normalize_cols f.2.cols, f.2.rows⟩
        | none => bases) []

/-- Embeds the Contexto dataclass (src/steps.py lines 10-23); timestamps are
opaque ticks. -/
structure Contexto where
  periodo_ini : Int
  periodo_fim : Int
  competencia : Int
  pos15_regra : String
deriving DecidableEq

/-- Exclusion of terminated employees (src/steps.py lines 59-61): when the
terminated table is non-empty and the active table has MATRICULA, keep the
active rows whose MATRICULA is not among the terminated MATRICULA values.
Selecting desligados[MATRICULA] raises KeyError when that table lacks the
column, which the source guard does not check. -/
def excluirDesligados (ativos desligados : Table) : Except String Table :=
  if desligados.isEmptyDf = false ∧ "MATRICULA" ∈ ativos.cols then
    if "MATRICULA" ∈ desligados.cols then
      .ok ⟨ativos.cols,
        ativos.rows.filter (fun r =>
          decide (cell ativos.cols r "MATRICULA" ∉
            desligados.rows.map (fun d => cell desligados.cols d "MATRICULA")))⟩
    else .error "KeyError: MATRICULA not in desligados"
  else .ok ativos

/-- Merged rows one active row contributes to the left merge on MATRICULA:
one row per vacation row of equal key, or a single na-filled row when none
matches. -/
def mergeRowsFor (ativos ferias : Table) (a : Row) : List Row :=
  if (ferias.rows.filter (fun m =>
      decide (cell ferias.cols m "MATRICULA" = cell ativos.cols a "MATRICULA"))).isEmpty then
    [a ++ [Val.na]]
  else
    (ferias.rows.filter (fun m =>
      decide (cell ferias.cols m "MATRICULA" = cell ativos.cols a "MATRICULA"))).map
      (fun m => a ++ [cell ferias.cols m "DIAS_DE_FERIAS"])

/-- Left merge of the vacation columns onto the active rows on MATRICULA
(src/steps.py lines 65-69). -/
def mergeFerias (ativos ferias : Table) : Table :=
  ⟨ativos.cols ++ ["DIAS_DE_FERIAS"], ativos.rows.flatMap (mergeRowsFor ativos ferias)⟩

/-- Computation 22 - fillna(0)(v) of the payable days from one merged
vacation cell; text cells are unreachable here, guarded by the TypeError check
of ajustarFerias. -/
def vsub22 : Val → Val
  | .num k => .num (22 - k)
  | .na => .num 22
  | .str _ => .na

/-- Vacation adjustment of montar_base_elegiveis (src/steps.py lines 63-72).
Inside the source guard, selecting ferias[[MATRICULA, DIAS_DE_FERIAS]] raises
KeyError when ferias lacks MATRICULA; when the active table already has a
DIAS_DE_FERIAS column the merge suffixes it and the subsequent access raises
KeyError; and 22 minus a text cell raises TypeError.  Otherwise DIAS is 22
uniformly. -/
def ajustarFerias (ativos ferias : Table) : Except String Table :=
  if ferias.isEmptyDf = false ∧ "MATRICULA" ∈ ativos.cols ∧ "DIAS_DE_FERIAS" ∈ ferias.cols then
    if "MATRICULA" ∉ ferias.cols then
      .error "KeyError: MATRICULA not in ferias"
    else if "DIAS_DE_FERIAS" ∈ ativos.cols then
      .error "KeyError: DIAS_DE_FERIAS suffixed by merge"
    else
      let merged := mergeFerias ativos ferias
      if merged.rows.any (fun r => isStrCell (cell merged.cols r "DIAS_DE_FERIAS")) then
        .error "TypeError: unsupported operand for int - str"
      else
        .ok (setCol merged "DIAS" (fun r => vsub22 (cell merged.cols r "DIAS_DE_FERIAS")))
  else .ok (setCol ativos "DIAS" (fun _ => .num 22))

/-- Product of two cells, the elementwise product of two numeric series. -/
def vmul : Val → Val → Val
  | .num a, .num b => .num (a * b)
  | _, _ => .na

/-- Union-chapter normalization and region inference (src/steps.py lines
79-81), applied only when a SINDICATO column exists. -/
def sindicatoStep (t : Table) : Table :=
  if "SINDICATO" ∈ t.cols then
    let t1 := setCol t "SINDICATO" (fun r => sauVal (cell t.cols r "SINDICATO"))
    setCol t1 "ESTADO" (fun r => .str (infer_estado_from_sindicato (cell t1.cols r "SINDICATO")))
  else t

/-- Role lookup bases.get(ATIVOS, pd.DataFrame()). -/
def getAtivos (bases : List (String × Table)) : Table := dictGet bases "ATIVOS" Table.emptyTable

/-- Role lookup bases.get(FERIAS, pd.DataFrame()). -/
def getFerias (bases : List (String × Table)) : Table := dictGet bases "FERIAS" Table.emptyTable

/-- Role lookup bases.get(DESLIGADOS, pd.DataFrame()). -/
def getDesligados (bases : List (String × Table)) : Table :=
  dictGet bases "DESLIGADOS" Table.emptyTable

/-- Final assembly of the eligibility table from the post-vacation table:
fixed daily rate VALOR_DIARIO_VR = 30, TOTAL = DIAS times the rate, and region
inference (src/steps.py lines 74-81). -/
def finalizeBase (t2 : Table) : Table :=
  let t3 := setCol t2 "VALOR_DIARIO_VR" (fun _ => .num 30)
  sindicatoStep (setCol t3 "TOTAL"
    (fun r => vmul (cell t3.cols r "DIAS") (cell t3.cols r "VALOR_DIARIO_VR")))

/-- Embeds steps.montar_base_elegiveis (src/steps.py lines 48-83): exclusion
of terminated employees, vacation adjustment of DIAS, then the fixed daily
rate, TOTAL and region inference of finalizeBase.  The ctx argument is
accepted and never read, exactly as in the source. -/
def montar_base_elegiveis (bases : List (String × Table)) (_ctx : Contexto) :
    Except String Table :=
  match excluirDesligados (getAtivos bases) (getDesligados bases) with
  | .error e => .error e
  | .ok t1 =>
    match ajustarFerias t1 (getFerias bases) with
    | .error e => .error e
    | .ok t2 => .ok (finalizeBase t2)

/-- Decides whether some cell of a named column is negative under the raw
comparison df[col] < 0 of gerar_validacoes; a text cell there raises
TypeError in pandas, flagged by rawNegTypeError below. -/
def rawNeg (t : Table) (c : String) : Bool :=
  t.rows.any (fun r =>
    match cell t.cols r c with
    | .num q => decide (q < 0)
    | _ => false)

/-- Decides whether the raw comparison df[col] < 0 would hit a text cell. -/
def rawNegTypeError (t : Table) (c : String) : Bool :=
  decide (c ∈ t.cols) && t.rows.any (fun r => isStrCell (cell t.cols r c))

/-- Embeds steps._gerar_validacoes (src/steps.py lines 86-109): the 80/20
check row (strict 0.01 tolerance, coerced values) when the three columns
exist, and the negative-values row over the raw columns. -/
def gerar_validacoes (df : Table) : Except String Table :=
  let have8020 := decide ("TOTAL" ∈ df.cols) && decide ("Custo empresa" ∈ df.cols) &&
    decide ("Desconto profissional" ∈ df.cols)
  let ceOk := df.rows.all (fun r =>
    decide (qabs (fill0 (cell df.cols r "Custo empresa") -
      fill0 (cell df.cols r "TOTAL") * (4/5)) < (1/100 : ℚ)))
  let dpOk := df.rows.all (fun r =>
    decide (qabs (fill0 (cell df.cols r "Desconto profissional") -
      fill0 (cell df.cols r "TOTAL") * (1/5)) < (1/100 : ℚ)))
  let negCandidates := ["DIAS", "TOTAL", "Custo empresa", "Desconto profissional"]
  if negCandidates.any (fun c => rawNegTypeError df c) then
    .error "TypeError: comparison of str and int"
  else
    let negativos := negCandidates.filter (fun c => decide (c ∈ df.cols) && rawNeg df c)
    let negDetail := if negativos.isEmpty then "Nenhum" else String.intercalate ", " negativos
    let checks :=
      (if have8020 then
        [[Val.str "Regra 80/20", Val.str (if ceOk && dpOk then "OK" else "Falha")]]
      else []) ++ [[Val.str "Valores negativos", Val.str negDetail]]
    .ok ⟨["Check", "Detalhe"], checks⟩

/-- Embeds steps.exportar_planilha (src/steps.py lines 112-123): the result
sheet first, one sheet per loaded role, then the Validações sheet. -/
def exportar_planilha (base : Table) (bases : List (String × Table)) (_ctx : Contexto) :
    Except String Workbook :=
  match gerar_validacoes base with
  | .error e => .error e
  | .ok val => .ok ([("VR Mensal", base)] ++ bases ++ [("Validações", val)])

/-- First assignment of the reinforcement: the company-cost column set to
0.80 of the coerced zero-filled TOTAL. -/
def withCusto (df : Table) : Table :=
  setCol df "Custo empresa" (fun r => .num ((4/5) * fill0 (cell df.cols r "TOTAL")))

/-- Sheet content after the 80/20 reinforcement: when TOTAL exists, the two
cost-split columns are overwritten with 0.80 and 0.20 of the coerced TOTAL;
otherwise the sheet is unchanged. -/
def heal8020 (df : Table) : Table :=
  if "TOTAL" ∈ df.cols then
    setCol (withCusto df) "Desconto profissional"
      (fun r => .num ((1/5) * fill0 (cell (withCusto df).cols r "TOTAL")))
  else df

/-- Embeds agent_vr._aplicar_80_20_no_arquivo (src/agent_vr.py lines 138-149):
read the first sheet, overwrite the cost-split columns from TOTAL when
present, and write the sheet back in place. -/
def aplicar_80_20_no_arquivo (wb : Workbook) : Except String Workbook :=
  match wb with
  | [] => .error "IndexError: workbook has no sheets"
  | (aba, df) :: _ => .ok (dictSet wb aba (heal8020 df))

/-- Ingestion-level errors of the strict pre-check. -/
inductive IngestErr where
  | dirNotFound
  | missingHint (hint : String)
deriving DecidableEq

/-- Values of REQUIRED_FILES_HINTS in dict insertion order
(src/agent_vr.py lines 106-110); the vacation hint is the accented FÉRIAS. -/
def requiredFileHints : List String := ["ATIVOS", "DESLIGADOS", "FÉRIAS"]

/-- Loop of _validate_input_dir over the hints: the first hint contained in no
lowercased xlsx filename is reported. -/
def hintsLoop (fls : List String) : List String → Except IngestErr Unit
  | [] => .ok ()
  | h :: hs =>
    if fls.any (fun f => strContains (pyLower h) f) then hintsLoop fls hs
    else .error (.missingHint h)

/-- Embeds agent_vr._validate_input_dir (src/agent_vr.py lines 112-120): a
missing directory raises FileNotFoundError, else each required hint must occur
(lowercased) in some lowercased xlsx filename. -/
def validate_input_dir (d : Dir) : Except IngestErr Unit :=
  match d with
  | none => .error .dirNotFound
  | some files =>
    let fls := (files.map (fun f => pyLower f.1)).filter (fun f => strEndsWith f ".xlsx")
    hintsLoop fls requiredFileHints

/-- Errors of the generate-benefit-workbook tool. -/
inductive PipeErr where
  | ingest (e : IngestErr)
  | runtime (msg : String)
deriving DecidableEq

/-- Embeds agent_vr.gerar_vr_mensal_tool (src/agent_vr.py lines 175-214) up to
the produced workbook: strict pre-check, ingestion, eligibility, export, then
the 80/20 reinforcement on the output file.  The JSON summary and the metrics
read-back are presentation and not modelled. -/
def gerar_vr_mensal_tool (d : Dir) (ctx : Contexto) : Except PipeErr Workbook :=
  match validate_input_dir d with
  | .error e => .error (.ingest e)
  | .ok _ =>
    match montar_base_elegiveis (carregar_bases d) ctx with
    | .error m => .error (.runtime m)
    | .ok base =>
      match exportar_planilha base (carregar_bases d) ctx with
      | .error m => .error (.runtime m)
      | .ok wb =>
        match aplicar_80_20_no_arquivo wb with
        | .error m => .error (.runtime m)
        | .ok wb2 => .ok wb2

/-- Sheet resolution of the validator (src/agent_vr.py lines 229 and 236): the
first sheet whose lowercased name contains vr mensal, else the first sheet. -/
def resolveSheet (wb : Workbook) : Option (String × Table) :=
  match wb.find? (fun p => strContains "vr mensal" (pyLower p.1)) with
  | some p => some p
  | none => wb.head?

/-- Decides the presence of the three numeric-check columns. -/
def hasSplitCols (t : Table) : Bool :=
  decide ("TOTAL" ∈ t.cols) && decide ("Custo empresa" ∈ t.cols) &&
    decide ("Desconto profissional" ∈ t.cols)

/-- Sum of a coerced, zero-filled numeric column. -/
def sumColQ (t : Table) (c : String) : ℚ :=
  (t.rows.map (fun r => fill0 (cell t.cols r c))).sum

/-- Structured result of validar_conformidade_tool: the fields of its JSON
report.  perRow and agg are the optional issue entries of issues_80_20, each
carrying its pair of ok-flags; none means the corresponding check passed or
was skipped. -/
structure Report where
  abaModelo : String
  faltantes : List String
  extras : List String
  perRow : Option (Bool × Bool)
  agg : Option (Bool × Bool)
  negativos : List String
deriving DecidableEq

/-- Numeric 80/20 checks of the validator (src/agent_vr.py lines 252-267),
run only when the three columns exist: per-row absolute tolerance, and
aggregate tolerance relative to max 1 (sum TOTAL). -/
def computeIssues (df : Table) (tol : ℚ) : Option (Bool × Bool) × Option (Bool × Bool) :=
  if hasSplitCols df then
    let ceOk := df.rows.all (fun r =>
      decide (qabs (fill0 (cell df.cols r "Custo empresa") -
        fill0 (cell df.cols r "TOTAL") * (4/5)) ≤ tol))
    let dpOk := df.rows.all (fun r =>
      decide (qabs (fill0 (cell df.cols r "Desconto profissional") -
        fill0 (cell df.cols r "TOTAL") * (1/5)) ≤ tol))
    let totalSum := qmax 1 (sumColQ df "TOTAL")
    let ceSumOk := decide (qabs (sumColQ df "Custo empresa" - totalSum * (4/5)) ≤ tol * totalSum)
    let dpSumOk := decide (qabs (sumColQ df "Desconto profissional" - totalSum * (1/5)) ≤ tol * totalSum)
    ((if ceOk && dpOk then none else some (ceOk, dpOk)),
     (if ceSumOk && dpSumOk then none else some (ceSumOk, dpSumOk)))
  else (none, none)

/-- Negative-value scan of the validator (src/agent_vr.py lines 270-275),
over coerced zero-filled values. -/
def negColsValidator (df : Table) : List String :=
  ["DIAS", "TOTAL", "Custo empresa", "Desconto profissional"].filter (fun c =>
    decide (c ∈ df.cols) && df.rows.any (fun r => decide (fill0 (cell df.cols r c) < 0)))

/-- Presence flag of the optional reference-validations workbook
(src/agent_vr.py lines 278-284): only the existence of a sheet named
Validações is consulted. -/
def refDetected (vr : Option Workbook) : Bool :=
  match vr with
  | none => false
  | some w => w.any (fun p => p.1 == "Validações")

/-- Comma-joined list or the dash placeholder of the report sheet. -/
def joinOrDash (l : List String) : String :=
  if l.isEmpty then "-" else String.intercalate ", " l

/-- Deterministic rendering of the issues_80_20 list for the report sheet; it
abstracts the Python str() of the list of dicts, and only its determinism
matters to the properties below. -/
def issuesText (pr agg : Option (Bool × Bool)) : String :=
  (match pr with
   | some (a, b) => "Falha 80/20 por linha ce_ok=" ++ toString a ++ " dp_ok=" ++ toString b ++ "; "
   | none => "") ++
  (match agg with
   | some (a, b) => "Falha 80/20 agregado ce_sum_ok=" ++ toString a ++ " dp_sum_ok=" ++ toString b
   | none => "")

/-- Content of the Validações sheet written by the validator
(src/agent_vr.py lines 287-293). -/
def resumoTable (rep : Report) (temRef : Bool) : Table :=
  ⟨["Check", "Detalhe"],
   [[Val.str "Colunas faltantes", Val.str (joinOrDash rep.faltantes)],
    [Val.str "Colunas extras", Val.str (joinOrDash rep.extras)],
    [Val.str "80/20", Val.str (if rep.perRow = none ∧ rep.agg = none then "OK"
      else issuesText rep.perRow rep.agg)],
    [Val.str "Valores negativos", Val.str (joinOrDash rep.negativos)],
    [Val.str "Validações ref. detectada?", Val.str (if temRef then "Sim" else "Não utilizado")]]⟩

/-- Assembly of the validator result once the output sheet is final: the
numeric checks, the negative scan, the report, and the workbook with its
Validações sheet overwritten. -/
def finishValidar (abaModelo : String) (faltantes extras : List String) (g : Workbook)
    (dfOut : Table) (valRef : Option Workbook) (tol : ℚ) : Report × Workbook :=
  let issues := computeIssues dfOut tol
  let rep : Report := ⟨abaModelo, faltantes, extras, issues.1, issues.2, negColsValidator dfOut⟩
  (rep, dictSet g "Validações" (resumoTable rep (refDetected valRef)))

/-- Embeds agent_vr.validar_conformidade_tool (src/agent_vr.py lines 222-305)
on already-resolved workbooks: template schema, missing and extra columns of
the generated sheet, the self-healing 80/20 write when the cost-split columns
are absent, the numeric checks, the negative scan, and the in-place rewrite of
the Validações sheet.  Fuzzy filename resolution is external and not
modelled. -/
def validar_conformidade_tool (gerado modelo : Workbook) (valRef : Option Workbook)
    (tol : ℚ) : Except String (Report × Workbook) :=
  match resolveSheet modelo with
  | none => .error "IndexError: template workbook has no sheets"
  | some (abaModelo, dfModelo) =>
    match resolveSheet gerado with
    | none => .error "IndexError: generated workbook has no sheets"
    | some (abaOut, dfOut0) =>
      if hasSplitCols dfOut0 then
        .ok (finishValidar abaModelo (dfModelo.cols.filter (fun c => decide (c ∉ dfOut0.cols)))
          (dfOut0.cols.filter (fun c => decide (c ∉ dfModelo.cols))) gerado dfOut0 valRef tol)
      else
        match aplicar_80_20_no_arquivo gerado with
        | .error e => .error e
        | .ok g1 =>
          match g1.find? (fun p => p.1 == abaOut) with
          | none => .error "ValueError: sheet not found after rewrite"
          | some p =>
            .ok (finishValidar abaModelo (dfModelo.cols.filter (fun c => decide (c ∉ dfOut0.cols)))
              (dfOut0.cols.filter (fun c => decide (c ∉ dfModelo.cols))) g1 p.2 valRef tol)

/-- Aggregate cost-split acceptance as claim C4 words it: sums compared
against 80 and 20 percent of the actual summed total, with the relative
tolerance floored at 1.  Stated from the claim, to be compared with the
behavior of computeIssues. -/
def claimAggPass (df : Table) (tol : ℚ) : Prop :=
  |sumColQ df "Custo empresa" - (4/5) * sumColQ df "TOTAL"| ≤ tol * max 1 (sumColQ df "TOTAL") ∧
  |sumColQ df "Desconto profissional" - (1/5) * sumColQ df "TOTAL"| ≤ tol * max 1 (sumColQ df "TOTAL")

/-- Rectangularity of every table of a directory. -/
def dirWFB (d : Dir) : Bool :=
  match d with
  | none => true
  | some files => files.all (fun f => f.2.wfB)

/-- Concrete input directory of the end-to-end run of the generate tool: an
active roster of two employees, a vacation roster giving employee 2 thirty
days, and a terminated roster naming an absent employee. -/
def c1Dir : Dir :=
  some [("ativos.xlsx", ⟨["MATRICULA"], [[.num 1], [.num 2]]⟩),
        ("férias.xlsx", ⟨["MATRICULA", "DIAS_DE_FERIAS"], [[.num 2, .num 30]]⟩),
        ("desligados.xlsx", ⟨["MATRICULA"], [[.num 3]]⟩)]

/-- Concrete role mapping whose non-empty vacation table has DIAS_DE_FERIAS
but no MATRICULA column. -/
def c2BadBases : List (String × Table) :=
  [("ATIVOS", ⟨["MATRICULA"], [[.num 1]]⟩),
   ("FERIAS", ⟨["DIAS_DE_FERIAS"], [[.num 5]]⟩)]

/-- Concrete role mapping of the vacation-days computation: employee 1 has no
vacation record, employee 2 has thirty recorded days. -/
def c2WBases : List (String × Table) :=
  [("ATIVOS", ⟨["MATRICULA"], [[.num 1], [.num 2]]⟩),
   ("FERIAS", ⟨["MATRICULA", "DIAS_DE_FERIAS"], [[.num 2, .num 30]]⟩)]

/-- Concrete role mapping whose non-empty terminated table lacks a MATRICULA
column. -/
def c3BadBases : List (String × Table) :=
  [("ATIVOS", ⟨["MATRICULA"], [[.num 1]]⟩),
   ("DESLIGADOS", ⟨["X"], [[.num 9]]⟩)]

/-- Concrete role mapping of the exclusion step: employee 2 is terminated. -/
def c3WBases : List (String × Table) :=
  [("ATIVOS", ⟨["MATRICULA"], [[.num 1], [.num 2]]⟩),
   ("DESLIGADOS", ⟨["MATRICULA"], [[.num 2]]⟩)]

/-- Concrete generated sheet whose TOTAL sums to zero while both cost-split
columns are exactly zero. -/
def c4Df : Table :=
  ⟨["TOTAL", "Custo empresa", "Desconto profissional"], [[.num 0, .num 0, .num 0]]⟩

/-- Workbook holding the zero-sum sheet. -/
def c4Wb : Workbook := [("VR Mensal", c4Df)]

/-- Concrete generated sheet with an exact 80/20 split on a total of 100. -/
def c4WDf : Table :=
  ⟨["TOTAL", "Custo empresa", "Desconto profissional"], [[.num 100, .num 80, .num 20]]⟩

/-- Workbook holding the exact-split sheet. -/
def c4WWb : Workbook := [("VR Mensal", c4WDf)]

/-- Concrete table behind an ambiguously named input file. -/
def c6T : Table := ⟨["MATRICULA"], [[.num 7]]⟩

/-- Concrete generated workbook lacking the cost-split columns, forcing the
self-healing write of the first validation run. -/
def c7Gen : Workbook := [("VR Mensal", ⟨["TOTAL"], [[.num 100]]⟩)]

/-- Concrete template workbook expecting the cost-split columns. -/
def c7Tmpl : Workbook := [("VR Mensal", ⟨["TOTAL", "Custo empresa", "Desconto profissional"], []⟩)]

/-- First validation run on the workbook that needs healing. -/
def c7Run1 : Except String (Report × Workbook) :=
  validar_conformidade_tool c7Gen c7Tmpl none (1/100)

/-- Second validation run, on the workbook produced by the first. -/
def c7Run2 : Except String (Report × Workbook) :=
  c7Run1.bind (fun p => validar_conformidade_tool p.2 c7Tmpl none (1/100))

/-- Concrete generated sheet carrying an exact 80/20 split, for the
idempotent validation run. -/
def c7WDf : Table :=
  ⟨["TOTAL", "Custo empresa", "Desconto profissional"], [[.num 100, .num 80, .num 20]]⟩

/-- Workbook holding the exact-split sheet of the idempotent run. -/
def c7WGen : Workbook := [("VR Mensal", c7WDf)]

/-- Concrete input directory whose vacation file is named with the unaccented
ferias only. -/
def c10Files : List (String × Table) :=
  [("ativos.xlsx", Table.emptyTable), ("desligados.xlsx", Table.emptyTable),
   ("ferias.xlsx", Table.emptyTable)]


theorem idxOf?_lt_length {c : String} : ∀ {l : List String} {i : Nat}, idxOf? c l = some i → i < l.length := by
  intro l
  induction l with
  | nil => intro i h; simp [idxOf?] at h
  | cons x xs ih =>
    intro i h
    by_cases hx : x = c
    · simp [idxOf?, hx] at h
      subst h
      simp
    · simp [idxOf?, hx] at h
      obtain ⟨j, hj, rfl⟩ := h
      have := ih hj
      simp only [List.length_cons]
      omega

theorem idxOf?_none {c : String} : ∀ {l : List String}, idxOf? c l = none ↔ c ∉ l := by
  intro l
  induction l with
  | nil => simp [idxOf?]
  | cons x xs ih =>
    by_cases hx : x = c
    · simp [idxOf?, hx]
    · simp [idxOf?, hx, ih, Ne.symm hx]

theorem idxOf?_mem {c : String} {l : List String} (h : c ∈ l) : ∃ i, idxOf? c l = some i := by
  cases hi : idxOf? c l with
  | none => exact absurd (idxOf?_none.mp hi) (by simpa using h)
  | some i => exact ⟨i, rfl⟩

theorem idxOf?_nthD {c d : String} : ∀ {l : List String} {i : Nat}, idxOf? c l = some i → nthD d l i = c := by
  intro l
  induction l with
  | nil => intro i h; simp [idxOf?] at h
  | cons x xs ih =>
    intro i h
    by_cases hx : x = c
    · simp [idxOf?, hx] at h
      subst h
      simpa [nthD] using hx
    · simp [idxOf?, hx] at h
      obtain ⟨j, hj, rfl⟩ := h
      simpa [nthD] using ih hj

theorem idxOf?_append_some {c : String} {l l2 : List String} {i : Nat}
    (h : idxOf? c l = some i) : idxOf? c (l ++ l2) = some i := by
  induction l generalizing i with
  | nil => simp [idxOf?] at h
  | cons x xs ih =>
    by_cases hx : x = c
    · simp [idxOf?, hx] at h ⊢
      exact h
    · simp [idxOf?, hx] at h ⊢
      obtain ⟨j, hj, rfl⟩ := h
      exact ⟨j, ih hj, rfl⟩

theorem idxOf?_append_self {c : String} {l : List String}
    (h : idxOf? c l = none) : idxOf? c (l ++ [c]) = some l.length := by
  induction l with
  | nil => simp [idxOf?]
  | cons x xs ih =>
    by_cases hx : x = c
    · simp [idxOf?, hx] at h
    · simp [idxOf?, hx] at h
      simp [idxOf?, hx, ih h]

theorem idxOf?_append_ne {c d : String} {l : List String}
    (h : idxOf? c l = none) (hne : d ≠ c) : idxOf? c (l ++ [d]) = none := by
  induction l with
  | nil => simp [idxOf?, hne]
  | cons x xs ih =>
    by_cases hx : x = c
    · simp [idxOf?, hx] at h
    · simp [idxOf?, hx] at h ⊢
      exact ih h

theorem setIdx_length {α : Type} : ∀ (r : List α) (i : Nat) (v : α), (setIdx r i v).length = r.length := by
  intro r
  induction r with
  | nil => intro i v; simp [setIdx]
  | cons x xs ih =>
    intro i v
    cases i with
    | zero => simp [setIdx]
    | succ n => simp [setIdx, ih]

theorem nthD_setIdx_eq {α : Type} {d : α} : ∀ {r : List α} {i : Nat} {v : α}, i < r.length →
    nthD d (setIdx r i v) i = v := by
  intro r
  induction r with
  | nil => intro i v h; simp at h
  | cons x xs ih =>
    intro i v h
    cases i with
    | zero => simp [setIdx, nthD]
    | succ n => simp [setIdx, nthD]; exact ih (by simpa using h)

theorem nthD_setIdx_ne {α : Type} {d : α} : ∀ {r : List α} {i j : Nat} {v : α}, i ≠ j →
    nthD d (setIdx r i v) j = nthD d r j := by
  intro r
  induction r with
  | nil => intro i j v h; simp [setIdx]
  | cons x xs ih =>
    intro i j v h
    cases i with
    | zero =>
      cases j with
      | zero => exact absurd rfl h
      | succ m => simp [setIdx, nthD]
    | succ n =>
      cases j with
      | zero => simp [setIdx, nthD]
      | succ m => simp [setIdx, nthD]; exact ih (by omega)

theorem nthD_append_left {α : Type} {d : α} : ∀ {r l2 : List α} {i : Nat}, i < r.length →
    nthD d (r ++ l2) i = nthD d r i := by
  intro r
  induction r with
  | nil => intro l2 i h; simp at h
  | cons x xs ih =>
    intro l2 i h
    cases i with
    | zero => simp [nthD]
    | succ n => simp [nthD]; exact ih (by simpa using h)

theorem nthD_append_self {α : Type} {d : α} : ∀ {r : List α} {v : α},
    nthD d (r ++ [v]) r.length = v := by
  intro r
  induction r with
  | nil => intro v; simp [nthD]
  | cons x xs ih => intro v; simpa [nthD] using ih

theorem wfB_iff {t : Table} : t.wfB = true ↔ ∀ r ∈ t.rows, r.length = t.cols.length := by
  simp [Table.wfB]

theorem cell_append_self {cols : List String} {r : Row} {c : String} {v : Val}
    (hlen : r.length = cols.length) (hc : c ∉ cols) :
    cell (cols ++ [c]) (r ++ [v]) c = v := by
  have h0 : idxOf? c cols = none := idxOf?_none.mpr hc
  simp only [cell, idxOf?_append_self h0, ← hlen, nthD_append_self]

theorem cell_append_other {cols : List String} {r : Row} {c c' : String} {v : Val}
    (hlen : r.length = cols.length) (hne : c ≠ c') :
    cell (cols ++ [c]) (r ++ [v]) c' = cell cols r c' := by
  cases h : idxOf? c' cols with
  | some i =>
    simp only [cell, idxOf?_append_some h, h]
    exact nthD_append_left (by rw [hlen]; exact idxOf?_lt_length h)
  | none =>
    simp only [cell, idxOf?_append_ne h hne, h]

theorem cell_setIdx_at {cols : List String} {r : Row} {c : String} {i : Nat} {v : Val}
    (hlen : r.length = cols.length) (hi : idxOf? c cols = some i) :
    cell cols (setIdx r i v) c = v := by
  simp only [cell, hi]
  exact nthD_setIdx_eq (by rw [hlen]; exact idxOf?_lt_length hi)

theorem cell_setIdx_other {cols : List String} {r : Row} {c c' : String} {i : Nat} {v : Val}
    (hi : idxOf? c cols = some i) (hne : c ≠ c') :
    cell cols (setIdx r i v) c' = cell cols r c' := by
  cases h : idxOf? c' cols with
  | some j =>
    have hij : i ≠ j := by
      intro hij
      subst hij
      exact hne ((idxOf?_nthD (d := "") hi).symm.trans (idxOf?_nthD (d := "") h))
    simp only [cell, h]
    exact nthD_setIdx_ne hij
  | none => simp only [cell, h]

theorem setCol_wfB {t : Table} {c : String} {f : Row → Val} (h : t.wfB = true) :
    (setCol t c f).wfB = true := by
  rw [wfB_iff] at h ⊢
  unfold setCol
  cases hc : idxOf? c t.cols with
  | some i =>
    intro r hr
    simp at hr
    obtain ⟨r0, hr0, rfl⟩ := hr
    simp [setIdx_length, h r0 hr0]
  | none =>
    intro r hr
    simp at hr
    obtain ⟨r0, hr0, rfl⟩ := hr
    simp [h r0 hr0]

theorem mem_of_idxOf? {c : String} {l : List String} {i : Nat} (h : idxOf? c l = some i) :
    c ∈ l := by
  by_contra hc
  rw [idxOf?_none.mpr hc] at h
  cases h

theorem setCol_mem_self {t : Table} {c : String} {f : Row → Val} :
    c ∈ (setCol t c f).cols := by
  unfold setCol
  cases hc : idxOf? c t.cols with
  | some i => simpa using mem_of_idxOf? hc
  | none => simp

theorem setCol_mem_mono {t : Table} {c c' : String} {f : Row → Val} (h : c' ∈ t.cols) :
    c' ∈ (setCol t c f).cols := by
  unfold setCol
  cases hc : idxOf? c t.cols with
  | some i => simpa using h
  | none => simp [h]

theorem setCol_rows_back {t : Table} {c : String} {f : Row → Val} (hwf : t.wfB = true) :
    ∀ r' ∈ (setCol t c f).rows, ∃ r ∈ t.rows,
      cell (setCol t c f).cols r' c = f r ∧
      ∀ c', c ≠ c' → cell (setCol t c f).cols r' c' = cell t.cols r c' := by
  intro r' hr'
  unfold setCol at hr' ⊢
  cases hc : idxOf? c t.cols with
  | some i =>
    simp [hc] at hr' ⊢
    obtain ⟨r, hr, rfl⟩ := hr'
    refine ⟨r, hr, cell_setIdx_at (wfB_iff.mp hwf r hr) hc, fun c' hne => cell_setIdx_other hc hne⟩
  | none =>
    simp [hc] at hr' ⊢
    obtain ⟨r, hr, rfl⟩ := hr'
    have hlen := wfB_iff.mp hwf r hr
    have hcn : c ∉ t.cols := idxOf?_none.mp hc
    refine ⟨r, hr, cell_append_self hlen hcn, fun c' hne => cell_append_other hlen hne⟩

theorem setCol_rows_fwd {t : Table} {c : String} {f : Row → Val} (hwf : t.wfB = true) :
    ∀ r ∈ t.rows, ∃ r' ∈ (setCol t c f).rows,
      cell (setCol t c f).cols r' c = f r ∧
      ∀ c', c ≠ c' → cell (setCol t c f).cols r' c' = cell t.cols r c' := by
  intro r hr
  unfold setCol
  cases hc : idxOf? c t.cols with
  | some i =>
    refine ⟨setIdx r i (f r), by simp [hc]; exact ⟨r, hr, rfl⟩, ?_, ?_⟩
    · simp [hc]
      exact cell_setIdx_at (wfB_iff.mp hwf r hr) hc
    · intro c' hne
      simp [hc]
      exact cell_setIdx_other hc hne
  | none =>
    have hlen := wfB_iff.mp hwf r hr
    have hcn : c ∉ t.cols := idxOf?_none.mp hc
    refine ⟨r ++ [f r], by simp [hc]; exact ⟨r, hr, rfl⟩, ?_, ?_⟩
    · simp [hc]
      exact cell_append_self hlen hcn
    · intro c' hne
      simp [hc]
      exact cell_append_other hlen hne





theorem norm_table_wfB {t : Table} (h : t.wfB = true) :
    (Table.mk (normalize_cols t.cols) t.rows).wfB = true := by
  rw [wfB_iff] at h ⊢
  intro r hr
  simpa [normalize_cols] using h r hr

theorem dictGet_wfB {l : List (String × Table)} {k : String}
    (h : ∀ p ∈ l, p.2.wfB = true) : (dictGet l k Table.emptyTable).wfB = true := by
  unfold dictGet
  cases hf : l.find? (fun p => p.1 == k) with
  | some p => exact h p (List.mem_of_find?_eq_some hf)
  | none => rfl

theorem dictSet_forall {α : Type} {P : α → Prop} {l : List (String × α)} {k : String} {v : α}
    (hl : ∀ p ∈ l, P p.2) (hv : P v) : ∀ p ∈ dictSet l k v, P p.2 := by
  intro p hp
  unfold dictSet at hp
  by_cases h : l.any (fun q => q.1 == k) = true
  · simp only [h, if_true] at hp
    obtain ⟨q, hq, hqe⟩ := List.mem_map.mp hp
    by_cases hqk : q.1 == k
    · simp [hqk] at hqe
      rw [← hqe]
      exact hv
    · simp [hqk] at hqe
      rw [← hqe]
      exact hl q hq
  · simp only [h, if_false] at hp
    rcases List.mem_append.mp hp with hq | hq
    · exact hl p hq
    · simp at hq
      rw [hq]
      exact hv

theorem carregar_foldl_wfB :
    ∀ (fs : List (String × Table)) (acc : List (String × Table)),
      (∀ p ∈ acc, p.2.wfB = true) → (∀ p ∈ fs, p.2.wfB = true) →
      ∀ p ∈ fs.foldl (fun bases f =>
          match classifyRole (pyUpper f.1) with
          | some role => dictSet bases role ⟨normalize_cols f.2.cols, f.2.rows⟩
          | none => bases) acc, p.2.wfB = true := by
  intro fs
  induction fs with
  | nil => intro acc hacc _ p hp; exact hacc p hp
  | cons f fs ih =>
    intro acc hacc hfs p hp
    simp only [List.foldl_cons] at hp
    cases hc : classifyRole (pyUpper f.1) with
    | some role =>
      rw [hc] at hp
      refine ih _ ?_ (fun q hq => hfs q (by simp [hq])) p hp
      exact dictSet_forall (α := Table) (P := fun t => Table.wfB t = true) hacc
        (norm_table_wfB (hfs f (by simp)))
    | none =>
      rw [hc] at hp
      exact ih _ hacc (fun q hq => hfs q (by simp [hq])) p hp

theorem carregar_bases_wfB {d : Dir} (h : dirWFB d = true) :
    ∀ p ∈ carregar_bases d, p.2.wfB = true := by
  cases d with
  | none => intro p hp; simp [carregar_bases] at hp
  | some files =>
    intro p hp
    unfold carregar_bases at hp
    refine carregar_foldl_wfB _ [] (by simp) ?_ p hp
    intro q hq
    unfold dirWFB at h
    rw [List.all_eq_true] at h
    exact h q (List.mem_of_mem_filter hq)

theorem dictSet_idem {α : Type} (l : List (String × α)) (k : String) (v : α) :
    dictSet (dictSet l k v) k v = dictSet l k v := by
  unfold dictSet
  by_cases h : l.any (fun p => p.1 == k) = true
  · rw [if_pos h]
    have h2 : (l.map (fun p => if p.1 == k then (k, v) else p)).any (fun p => p.1 == k) = true := by
      rw [List.any_eq_true] at h ⊢
      obtain ⟨p, hp, hpk⟩ := h
      exact ⟨(k, v), List.mem_map.mpr ⟨p, hp, by simp [hpk]⟩, by simp⟩
    rw [if_pos h2, List.map_map]
    apply List.map_congr_left
    intro p _
    simp only [Function.comp_apply]
    by_cases hp : (p.1 == k) = true
    · rw [if_pos hp]
      simp
    · rw [if_neg hp, if_neg hp]
  · rw [if_neg h]
    have h2 : (l ++ [(k, v)]).any (fun p => p.1 == k) = true := by
      rw [List.any_append]
      simp
    rw [if_pos h2, List.map_append]
    have h3 : l.map (fun p => if p.1 == k then (k, v) else p) = l := by
      conv_rhs => rw [← List.map_id l]
      apply List.map_congr_left
      intro p hp
      have hpf : ¬ (p.1 == k) = true := fun hc => h (List.any_eq_true.mpr ⟨p, hp, hc⟩)
      simp [hpf]
    rw [h3]
    simp

theorem find?_fst_map_replace {α : Type} (l : List (String × α)) (k : String) (v : α)
    (g : String → Bool) (hpk : g k = false) :
    (l.map (fun p => if p.1 == k then (k, v) else p)).find? (fun p => g p.1) =
      l.find? (fun p => g p.1) := by
  induction l with
  | nil => rfl
  | cons p ps ih =>
    simp only [List.map_cons]
    by_cases hp : (p.1 == k) = true
    · have hp1 : p.1 = k := by simpa using hp
      rw [if_pos hp,
        List.find?_cons_of_neg (p := fun q : String × α => g q.1) _ (by simp [hpk]),
        List.find?_cons_of_neg (p := fun q : String × α => g q.1) _ (by
          simp only []
          rw [hp1, hpk]
          simp)]
      exact ih
    · rw [if_neg hp]
      by_cases hf : g p.1 = true
      · rw [List.find?_cons_of_pos (p := fun q : String × α => g q.1) _ hf,
          List.find?_cons_of_pos (p := fun q : String × α => g q.1) _ hf]
      · rw [List.find?_cons_of_neg (p := fun q : String × α => g q.1) _ hf,
          List.find?_cons_of_neg (p := fun q : String × α => g q.1) _ hf]
        exact ih

theorem find?_fst_dictSet {α : Type} {l : List (String × α)} {k : String} {v : α}
    {g : String → Bool} (hpk : g k = false) :
    (dictSet l k v).find? (fun p => g p.1) = l.find? (fun p => g p.1) := by
  unfold dictSet
  by_cases h : l.any (fun p => p.1 == k) = true
  · rw [if_pos h]
    exact find?_fst_map_replace l k v g hpk
  · rw [if_neg h, List.find?_append]
    have hnone : List.find? (fun p => g p.1) [(k, v)] = none := by
      rw [List.find?_cons_of_neg (p := fun q : String × α => g q.1) _ (by simp [hpk])]
      rfl
    rw [hnone, Option.or_none]

theorem dictSet_head_self {α : Type} {k : String} {t v2 : α} {rest : List (String × α)} :
    dictSet ((k, t) :: rest) k v2 =
      (k, v2) :: rest.map (fun p => if p.1 == k then (k, v2) else p) := by
  unfold dictSet
  have h : ((k, t) :: rest).any (fun p => p.1 == k) = true := by simp
  rw [if_pos h]
  simp

theorem excluir_ok_facts {a d t1 : Table} (h : excluirDesligados a d = .ok t1) :
    t1.cols = a.cols ∧ (∀ r ∈ t1.rows, r ∈ a.rows) ∧ (a.wfB = true → t1.wfB = true) := by
  unfold excluirDesligados at h
  by_cases hg : d.isEmptyDf = false ∧ "MATRICULA" ∈ a.cols
  · rw [if_pos hg] at h
    by_cases hm : "MATRICULA" ∈ d.cols
    · rw [if_pos hm] at h
      cases h
      refine ⟨rfl, fun r hr => List.mem_of_mem_filter hr, fun hwf => ?_⟩
      rw [wfB_iff] at hwf ⊢
      intro r hr
      exact hwf r (List.mem_of_mem_filter hr)
    · rw [if_neg hm] at h
      cases h
  · rw [if_neg hg] at h
    cases h
    exact ⟨rfl, fun r hr => hr, fun hwf => hwf⟩

theorem excluir_guard_true {a d t1 : Table}
    (hg : d.isEmptyDf = false ∧ "MATRICULA" ∈ a.cols)
    (h : excluirDesligados a d = .ok t1) :
    "MATRICULA" ∈ d.cols ∧
    t1.rows = a.rows.filter (fun r =>
      decide (cell a.cols r "MATRICULA" ∉
        d.rows.map (fun x => cell d.cols x "MATRICULA"))) := by
  unfold excluirDesligados at h
  rw [if_pos hg] at h
  by_cases hm : "MATRICULA" ∈ d.cols
  · rw [if_pos hm] at h
    cases h
    exact ⟨hm, rfl⟩
  · rw [if_neg hm] at h
    cases h

theorem excluir_guard_false {a d : Table}
    (hg : ¬ (d.isEmptyDf = false ∧ "MATRICULA" ∈ a.cols)) :
    excluirDesligados a d = .ok a := by
  unfold excluirDesligados
  rw [if_neg hg]

theorem mergeRowsFor_mem {a f : Table} {x r : Row} (h : r ∈ mergeRowsFor a f x) :
    (r = x ++ [Val.na] ∧
      ∀ m ∈ f.rows, cell f.cols m "MATRICULA" ≠ cell a.cols x "MATRICULA") ∨
    (∃ m ∈ f.rows, cell f.cols m "MATRICULA" = cell a.cols x "MATRICULA" ∧
      r = x ++ [cell f.cols m "DIAS_DE_FERIAS"]) := by
  unfold mergeRowsFor at h
  split at h
  · next hms =>
    left
    refine ⟨by simpa using h, ?_⟩
    intro m hm hmm
    have hnil := List.isEmpty_iff.mp hms
    have := List.filter_eq_nil_iff.mp hnil m hm
    simp [hmm] at this
  · next hms =>
    right
    obtain ⟨m, hm, hr⟩ := List.mem_map.mp h
    have hmem := List.mem_filter.mp hm
    exact ⟨m, hmem.1, by simpa using hmem.2, hr.symm⟩

theorem mergeRowsFor_exists (a f : Table) (x : Row) :
    ∃ r ∈ mergeRowsFor a f x, ∃ v, r = x ++ [v] := by
  unfold mergeRowsFor
  split
  · exact ⟨x ++ [Val.na], by simp, Val.na, rfl⟩
  · next hms =>
    cases hcase : f.rows.filter (fun m =>
        decide (cell f.cols m "MATRICULA" = cell a.cols x "MATRICULA")) with
    | nil => rw [hcase] at hms; simp at hms
    | cons m0 ms0 =>
      refine ⟨x ++ [cell f.cols m0 "DIAS_DE_FERIAS"], ?_, cell f.cols m0 "DIAS_DE_FERIAS", rfl⟩
      simp

theorem mergeFerias_back {a f : Table} (hwf : a.wfB = true)
    (hDDF : "DIAS_DE_FERIAS" ∉ a.cols) :
    ∀ r ∈ (mergeFerias a f).rows, ∃ x ∈ a.rows,
      (∀ c', "DIAS_DE_FERIAS" ≠ c' → cell (mergeFerias a f).cols r c' = cell a.cols x c') ∧
      ((cell (mergeFerias a f).cols r "DIAS_DE_FERIAS" = .na ∧
        ∀ m ∈ f.rows, cell f.cols m "MATRICULA" ≠ cell a.cols x "MATRICULA") ∨
       (∃ m ∈ f.rows, cell f.cols m "MATRICULA" = cell a.cols x "MATRICULA" ∧
        cell (mergeFerias a f).cols r "DIAS_DE_FERIAS" = cell f.cols m "DIAS_DE_FERIAS")) := by
  intro r hr
  obtain ⟨x, hx, hr⟩ := List.mem_flatMap.mp hr
  have hlen := wfB_iff.mp hwf x hx
  rcases mergeRowsFor_mem hr with ⟨rfl, hnone⟩ | ⟨m, hm, hkey, rfl⟩
  · exact ⟨x, hx, fun c' hne => cell_append_other hlen hne,
      Or.inl ⟨cell_append_self hlen hDDF, hnone⟩⟩
  · exact ⟨x, hx, fun c' hne => cell_append_other hlen hne,
      Or.inr ⟨m, hm, hkey, cell_append_self hlen hDDF⟩⟩

theorem mergeFerias_fwd {a f : Table} (hwf : a.wfB = true) :
    ∀ x ∈ a.rows, ∃ r ∈ (mergeFerias a f).rows,
      ∀ c', "DIAS_DE_FERIAS" ≠ c' → cell (mergeFerias a f).cols r c' = cell a.cols x c' := by
  intro x hx
  have hlen := wfB_iff.mp hwf x hx
  obtain ⟨r, hr, v, rfl⟩ := mergeRowsFor_exists a f x
  exact ⟨x ++ [v], List.mem_flatMap.mpr ⟨x, hx, hr⟩, fun c' hne => cell_append_other hlen hne⟩

theorem mergeFerias_wfB {a f : Table} (h : a.wfB = true) : (mergeFerias a f).wfB = true := by
  rw [wfB_iff] at h ⊢
  intro r hr
  obtain ⟨x, hx, hr⟩ := List.mem_flatMap.mp hr
  have hlen := h x hx
  rcases mergeRowsFor_mem hr with ⟨rfl, _⟩ | ⟨m, _, _, rfl⟩ <;>
    simp [mergeFerias, hlen]

theorem ajustar_guard_false {t1 f : Table}
    (hg : ¬ (f.isEmptyDf = false ∧ "MATRICULA" ∈ t1.cols ∧ "DIAS_DE_FERIAS" ∈ f.cols)) :
    ajustarFerias t1 f = .ok (setCol t1 "DIAS" (fun _ => .num 22)) := by
  unfold ajustarFerias
  rw [if_neg hg]

theorem ajustar_guard_true {t1 f t2 : Table}
    (hg : f.isEmptyDf = false ∧ "MATRICULA" ∈ t1.cols ∧ "DIAS_DE_FERIAS" ∈ f.cols)
    (h : ajustarFerias t1 f = .ok t2) :
    "MATRICULA" ∈ f.cols ∧ "DIAS_DE_FERIAS" ∉ t1.cols ∧
    ((mergeFerias t1 f).rows.any (fun r =>
      isStrCell (cell (mergeFerias t1 f).cols r "DIAS_DE_FERIAS"))) = false ∧
    t2 = setCol (mergeFerias t1 f) "DIAS"
      (fun r => vsub22 (cell (mergeFerias t1 f).cols r "DIAS_DE_FERIAS")) := by
  unfold ajustarFerias at h
  rw [if_pos hg] at h
  by_cases hm : "MATRICULA" ∉ f.cols
  · rw [if_pos hm] at h
    cases h
  · rw [if_neg hm] at h
    by_cases hd : "DIAS_DE_FERIAS" ∈ t1.cols
    · rw [if_pos hd] at h
      cases h
    · rw [if_neg hd] at h
      by_cases hs : ((mergeFerias t1 f).rows.any (fun r =>
          isStrCell (cell (mergeFerias t1 f).cols r "DIAS_DE_FERIAS"))) = true
      · rw [if_pos hs] at h
        cases h
      · rw [if_neg hs] at h
        cases h
        exact ⟨by simpa using hm, hd, by simpa using hs, rfl⟩

theorem ajustar_ok_wfB {t1 f t2 : Table} (hwf : t1.wfB = true)
    (h : ajustarFerias t1 f = .ok t2) : t2.wfB = true := by
  by_cases hg : f.isEmptyDf = false ∧ "MATRICULA" ∈ t1.cols ∧ "DIAS_DE_FERIAS" ∈ f.cols
  · obtain ⟨_, _, _, ht2⟩ := ajustar_guard_true hg h
    rw [ht2]
    exact setCol_wfB (mergeFerias_wfB hwf)
  · rw [ajustar_guard_false hg] at h
    cases h
    exact setCol_wfB hwf

theorem ajustar_back {t1 f t2 : Table} (hwf : t1.wfB = true)
    (h : ajustarFerias t1 f = .ok t2) :
    ∀ r2 ∈ t2.rows, ∃ x ∈ t1.rows, ∀ c', "DIAS" ≠ c' → "DIAS_DE_FERIAS" ≠ c' →
      cell t2.cols r2 c' = cell t1.cols x c' := by
  by_cases hg : f.isEmptyDf = false ∧ "MATRICULA" ∈ t1.cols ∧ "DIAS_DE_FERIAS" ∈ f.cols
  · obtain ⟨_, hDDF, _, ht2⟩ := ajustar_guard_true hg h
    subst ht2
    intro r2 hr2
    obtain ⟨rm, hrm, _, hpres⟩ := setCol_rows_back (mergeFerias_wfB hwf) r2 hr2
    obtain ⟨x, hx, hpres2, _⟩ := mergeFerias_back hwf hDDF rm hrm
    exact ⟨x, hx, fun c' hd hddf => (hpres c' hd).trans (hpres2 c' hddf)⟩
  · rw [ajustar_guard_false hg] at h
    cases h
    intro r2 hr2
    obtain ⟨x, hx, _, hpres⟩ := setCol_rows_back hwf r2 hr2
    exact ⟨x, hx, fun c' hd _ => hpres c' hd⟩

theorem ajustar_fwd {t1 f t2 : Table} (hwf : t1.wfB = true)
    (h : ajustarFerias t1 f = .ok t2) :
    ∀ x ∈ t1.rows, ∃ r2 ∈ t2.rows, ∀ c', "DIAS" ≠ c' → "DIAS_DE_FERIAS" ≠ c' →
      cell t2.cols r2 c' = cell t1.cols x c' := by
  by_cases hg : f.isEmptyDf = false ∧ "MATRICULA" ∈ t1.cols ∧ "DIAS_DE_FERIAS" ∈ f.cols
  · obtain ⟨_, hDDF, _, ht2⟩ := ajustar_guard_true hg h
    subst ht2
    intro x hx
    obtain ⟨rm, hrm, hpres2⟩ := mergeFerias_fwd (f := f) hwf x hx
    obtain ⟨r2, hr2, _, hpres⟩ := setCol_rows_fwd (mergeFerias_wfB hwf) rm hrm
    exact ⟨r2, hr2, fun c' hd hddf => (hpres c' hd).trans (hpres2 c' hddf)⟩
  · rw [ajustar_guard_false hg] at h
    cases h
    intro x hx
    obtain ⟨r2, hr2, _, hpres⟩ := setCol_rows_fwd hwf x hx
    exact ⟨r2, hr2, fun c' hd _ => hpres c' hd⟩

theorem sindicatoStep_wfB {t : Table} (h : t.wfB = true) : (sindicatoStep t).wfB = true := by
  unfold sindicatoStep
  by_cases hs : "SINDICATO" ∈ t.cols
  · rw [if_pos hs]
    exact setCol_wfB (setCol_wfB h)
  · rw [if_neg hs]
    exact h

theorem sindicatoStep_mem {t : Table} {c : String} (h : c ∈ t.cols) :
    c ∈ (sindicatoStep t).cols := by
  unfold sindicatoStep
  by_cases hs : "SINDICATO" ∈ t.cols
  · rw [if_pos hs]
    exact setCol_mem_mono (setCol_mem_mono h)
  · rw [if_neg hs]
    exact h

theorem sindicatoStep_back {t : Table} (hwf : t.wfB = true) :
    ∀ r ∈ (sindicatoStep t).rows, ∃ x ∈ t.rows,
      ∀ c', "SINDICATO" ≠ c' → "ESTADO" ≠ c' →
        cell (sindicatoStep t).cols r c' = cell t.cols x c' := by
  unfold sindicatoStep
  by_cases hs : "SINDICATO" ∈ t.cols
  · rw [if_pos hs]
    intro r hr
    obtain ⟨y, hy, _, hpres⟩ := setCol_rows_back (setCol_wfB hwf) r hr
    obtain ⟨x, hx, _, hpres2⟩ := setCol_rows_back hwf y hy
    exact ⟨x, hx, fun c' hsind hest => (hpres c' hest).trans (hpres2 c' hsind)⟩
  · rw [if_neg hs]
    intro r hr
    exact ⟨r, hr, fun c' _ _ => rfl⟩

theorem sindicatoStep_fwd {t : Table} (hwf : t.wfB = true) :
    ∀ x ∈ t.rows, ∃ r ∈ (sindicatoStep t).rows,
      ∀ c', "SINDICATO" ≠ c' → "ESTADO" ≠ c' →
        cell (sindicatoStep t).cols r c' = cell t.cols x c' := by
  unfold sindicatoStep
  by_cases hs : "SINDICATO" ∈ t.cols
  · rw [if_pos hs]
    intro x hx
    obtain ⟨y, hy, _, hpres2⟩ := setCol_rows_fwd hwf x hx
    obtain ⟨r, hr, _, hpres⟩ := setCol_rows_fwd (setCol_wfB hwf) y hy
    exact ⟨r, hr, fun c' hsind hest => (hpres c' hest).trans (hpres2 c' hsind)⟩
  · rw [if_neg hs]
    intro x hx
    exact ⟨x, hx, fun c' _ _ => rfl⟩

theorem finalizeBase_wfB {t2 : Table} (h : t2.wfB = true) : (finalizeBase t2).wfB = true :=
  sindicatoStep_wfB (setCol_wfB (setCol_wfB h))

theorem finalizeBase_total_mem {t2 : Table} : "TOTAL" ∈ (finalizeBase t2).cols :=
  sindicatoStep_mem setCol_mem_self

theorem finalizeBase_back {t2 : Table} (hwf : t2.wfB = true) :
    ∀ r ∈ (finalizeBase t2).rows, ∃ x ∈ t2.rows,
      cell (finalizeBase t2).cols r "DIAS" = cell t2.cols x "DIAS" ∧
      cell (finalizeBase t2).cols r "DIAS_DE_FERIAS" = cell t2.cols x "DIAS_DE_FERIAS" ∧
      cell (finalizeBase t2).cols r "MATRICULA" = cell t2.cols x "MATRICULA" ∧
      cell (finalizeBase t2).cols r "TOTAL" = vmul (cell t2.cols x "DIAS") (.num 30) := by
  intro r hr
  unfold finalizeBase at hr ⊢
  obtain ⟨y, hy, hpres⟩ := sindicatoStep_back (setCol_wfB (setCol_wfB hwf)) r hr
  obtain ⟨z, hz, htot, hpres2⟩ := setCol_rows_back (setCol_wfB hwf) y hy
  obtain ⟨x, hx, hvalor, hpres3⟩ := setCol_rows_back hwf z hz
  have hdias3 : cell (setCol t2 "VALOR_DIARIO_VR" (fun _ => .num 30)).cols z "DIAS" =
      cell t2.cols x "DIAS" := hpres3 "DIAS" (by decide)
  refine ⟨x, hx, ?_, ?_, ?_, ?_⟩
  · rw [hpres "DIAS" (by decide) (by decide), hpres2 "DIAS" (by decide), hdias3]
  · rw [hpres "DIAS_DE_FERIAS" (by decide) (by decide), hpres2 "DIAS_DE_FERIAS" (by decide),
      hpres3 "DIAS_DE_FERIAS" (by decide)]
  · rw [hpres "MATRICULA" (by decide) (by decide), hpres2 "MATRICULA" (by decide),
      hpres3 "MATRICULA" (by decide)]
  · rw [hpres "TOTAL" (by decide) (by decide), htot, hdias3, hvalor]

theorem finalizeBase_fwd {t2 : Table} (hwf : t2.wfB = true) :
    ∀ x ∈ t2.rows, ∃ r ∈ (finalizeBase t2).rows,
      cell (finalizeBase t2).cols r "MATRICULA" = cell t2.cols x "MATRICULA" := by
  intro x hx
  unfold finalizeBase
  obtain ⟨z, hz, _, hpres3⟩ := setCol_rows_fwd hwf x hx
  obtain ⟨y, hy, _, hpres2⟩ := setCol_rows_fwd (setCol_wfB hwf) z hz
  obtain ⟨r, hr, hpres⟩ := sindicatoStep_fwd (setCol_wfB (setCol_wfB hwf)) y hy
  refine ⟨r, hr, ?_⟩
  rw [hpres "MATRICULA" (by decide) (by decide), hpres2 "MATRICULA" (by decide),
    hpres3 "MATRICULA" (by decide)]

theorem montar_destruct {bases : List (String × Table)} {ctx : Contexto} {base : Table}
    (h : montar_base_elegiveis bases ctx = .ok base) :
    ∃ t1 t2, excluirDesligados (getAtivos bases) (getDesligados bases) = .ok t1 ∧
      ajustarFerias t1 (getFerias bases) = .ok t2 ∧ base = finalizeBase t2 := by
  unfold montar_base_elegiveis at h
  split at h
  · cases h
  · rename_i t1 h1
    split at h
    · cases h
    · rename_i t2 h2
      cases h
      exact ⟨t1, t2, h1, h2, rfl⟩

theorem montar_wfB {bases : List (String × Table)} {ctx : Contexto} {base : Table}
    (hA : (getAtivos bases).wfB = true)
    (h : montar_base_elegiveis bases ctx = .ok base) :
    base.wfB = true ∧ "TOTAL" ∈ base.cols := by
  obtain ⟨t1, t2, h1, h2, rfl⟩ := montar_destruct h
  have hw1 := (excluir_ok_facts h1).2.2 hA
  have hw2 := ajustar_ok_wfB hw1 h2
  exact ⟨finalizeBase_wfB hw2, finalizeBase_total_mem⟩


theorem firstContained_of_unique {l : List String} {s u : String} (hu : u ∈ l)
    (hc : strContains u s = true)
    (huniq : ∀ x ∈ l, strContains x s = true → x = u) :
    firstContained l s = u := by
  induction l with
  | nil => cases hu
  | cons x xs ih =>
    unfold firstContained
    by_cases hx : strContains x s = true
    · rw [if_pos hx]
      exact huniq x (by simp) hx
    · rw [if_neg hx]
      have hux : u ≠ x := fun h => hx (h ▸ hc)
      have hu' : u ∈ xs := by
        cases List.mem_cons.mp hu with
        | inl h => exact absurd h hux
        | inr h => exact h
      exact ih hu' (fun y hy hys => huniq y (by simp [hy]) hys)

theorem firstContained_of_none {l : List String} {s : String}
    (h : ∀ x ∈ l, strContains x s = false) : firstContained l s = "?" := by
  induction l with
  | nil => rfl
  | cons x xs ih =>
    unfold firstContained
    rw [if_neg (by simp [h x (by simp)])]
    exact ih (fun y hy => h y (by simp [hy]))

theorem firstContained_eq_find {l : List String} {s : String} :
    firstContained l s = ((l.find? (fun u => strContains u s)).getD "?") := by
  induction l with
  | nil => rfl
  | cons x xs ih =>
    unfold firstContained
    by_cases hx : strContains x s = true
    · rw [if_pos hx, List.find?_cons_of_pos (p := fun u => strContains u s) _ hx]
      rfl
    · rw [if_neg hx, List.find?_cons_of_neg (p := fun u => strContains u s) _ hx]
      exact ih

/-- C8: region inference over a union-chapter string s dispatches on the
substring matches of the sixteen region codes against the accent-stripped
uppercased form of s: a unique match is returned, no match gives the sentinel,
and in general the first match in the fixed list order wins. -/
theorem c8_region_inference (s : String) :
    (∀ uf ∈ ufList, strContains uf (strip_accents_upper s) = true →
      (∀ x ∈ ufList, strContains x (strip_accents_upper s) = true → x = uf) →
      infer_estado_from_sindicato (.str s) = uf) ∧
    ((∀ x ∈ ufList, strContains x (strip_accents_upper s) = false) →
      infer_estado_from_sindicato (.str s) = "?") ∧
    infer_estado_from_sindicato (.str s) =
      ((ufList.find? (fun u => strContains u (strip_accents_upper s))).getD "?") := by
  refine ⟨?_, ?_, ?_⟩
  · intro uf hu hc huniq
    exact firstContained_of_unique hu hc huniq
  · intro h
    exact firstContained_of_none h
  · exact firstContained_eq_find

/-- Witness of c8_region_inference: the code RJ is the unique match for a
concrete union string, and a string with no code gives the sentinel. -/
theorem c8_region_inference_witness :
    "RJ" ∈ ufList ∧ strContains "RJ" (strip_accents_upper "Sindicato RJ") = true ∧
    infer_estado_from_sindicato (.str "Sindicato RJ") = "RJ" ∧
    infer_estado_from_sindicato (.str "Sindicato xyz") = "?" :=
  ⟨by decide, by decide,
    (c8_region_inference "Sindicato RJ").1 "RJ" (by decide) (by decide) (by decide),
    (c8_region_inference "Sindicato xyz").2.1 (by decide)⟩

/-- C9: the pos15_regra field of the context has no effect on the eligibility
computation: montar_base_elegiveis never reads its context argument, so two
contexts agreeing on every other field give identical eligibility results. -/
theorem c9_pos15_regra_inert (bases : List (String × Table)) (c1 c2 : Contexto)
    (_hini : c1.periodo_ini = c2.periodo_ini) (_hfim : c1.periodo_fim = c2.periodo_fim)
    (_hcomp : c1.competencia = c2.competencia) :
    montar_base_elegiveis bases c1 = montar_base_elegiveis bases c2 := rfl

/-- Witness of c9_pos15_regra_inert at the integral versus proporcional rules
over a concrete role mapping. -/
theorem c9_pos15_regra_inert_witness :
    (Contexto.mk 0 1 2 "integral").periodo_ini = (Contexto.mk 0 1 2 "proporcional").periodo_ini ∧
    (Contexto.mk 0 1 2 "integral").periodo_fim = (Contexto.mk 0 1 2 "proporcional").periodo_fim ∧
    (Contexto.mk 0 1 2 "integral").competencia = (Contexto.mk 0 1 2 "proporcional").competencia ∧
    montar_base_elegiveis c2WBases (Contexto.mk 0 1 2 "integral") =
      montar_base_elegiveis c2WBases (Contexto.mk 0 1 2 "proporcional") :=
  ⟨rfl, rfl, rfl, c9_pos15_regra_inert c2WBases _ _ rfl rfl rfl⟩

/-- Counterexample to C5 as stated: on a non-existent directory the ingestion
function returns the empty role mapping instead of raising; its glob yields no
files and the loop body never runs. -/
theorem c5_counterexample : carregar_bases none = ([] : List (String × Table)) := rfl

/-- C5 amended: for a non-existent directory the strict pre-check raises the
directory-not-found error, and so does the generate tool, which runs the
pre-check before ingestion; ingestion itself returns the empty mapping. -/
theorem c5_missing_directory (d : Dir) (h : d = none) :
    validate_input_dir d = .error .dirNotFound ∧
    carregar_bases d = [] ∧
    ∀ ctx : Contexto, gerar_vr_mensal_tool d ctx = .error (.ingest .dirNotFound) := by
  subst h
  exact ⟨rfl, rfl, fun _ => rfl⟩

/-- Witness of c5_missing_directory at the missing directory itself. -/
theorem c5_missing_directory_witness :
    (none : Dir) = none ∧
    (validate_input_dir none = .error .dirNotFound ∧
     carregar_bases none = [] ∧
     ∀ ctx : Contexto, gerar_vr_mensal_tool none ctx = .error (.ingest .dirNotFound)) :=
  ⟨rfl, c5_missing_directory none rfl⟩

/-- Counterexample to C6 as stated: the file named ativos_ferias.xlsx matches
both the ATIVOS and the FERIAS hints, yet ingestion assigns it to the ATIVOS
role instead of dropping it. -/
theorem c6_counterexample :
    carregar_bases (some [("ativos_ferias.xlsx", c6T)]) = [("ATIVOS", c6T)] := rfl

/-- C6 amended: classification follows the if/elif order of the source — a
file whose uppercased name contains ATIVOS is assigned to ATIVOS even when it
also matches other hints; failing that, a FERIAS or FÉRIAS match assigns it to
FERIAS; failing that a DESLIGADOS match assigns DESLIGADOS; a file matching no hint is dropped. -/
theorem c6_ambiguous_first_match (f : String) (t : Table)
    (hx : strEndsWith f ".xlsx" = true) :
    (strContains "ATIVOS" (pyUpper f) = true →
      carregar_bases (some [(f, t)]) = [("ATIVOS", ⟨normalize_cols t.cols, t.rows⟩)]) ∧
    (strContains "ATIVOS" (pyUpper f) = false →
      (strContains "FERIAS" (pyUpper f) || strContains "FÉRIAS" (pyUpper f)) = true →
      carregar_bases (some [(f, t)]) = [("FERIAS", ⟨normalize_cols t.cols, t.rows⟩)]) ∧
    (strContains "ATIVOS" (pyUpper f) = false →
      (strContains "FERIAS" (pyUpper f) || strContains "FÉRIAS" (pyUpper f)) = false →
      strContains "DESLIGADOS" (pyUpper f) = true →
      carregar_bases (some [(f, t)]) = [("DESLIGADOS", ⟨normalize_cols t.cols, t.rows⟩)]) ∧
    (classifyRole (pyUpper f) = none → carregar_bases (some [(f, t)]) = []) := by
  refine ⟨?_, ?_, ?_, ?_⟩
  · intro h1
    simp [carregar_bases, hx, classifyRole, h1, dictSet]
  · intro h1 h2
    have h2' : strContains "FERIAS" (pyUpper f) = true ∨ strContains "FÉRIAS" (pyUpper f) = true := by
      simpa using h2
    rcases h2' with hf | hf <;> simp [carregar_bases, hx, classifyRole, h1, hf, dictSet]
  · intro h1 h2 h3
    have h2' : strContains "FERIAS" (pyUpper f) = false ∧ strContains "FÉRIAS" (pyUpper f) = false := by
      constructor <;> [exact Bool.or_eq_false_iff.mp h2 |>.1; exact Bool.or_eq_false_iff.mp h2 |>.2]
    simp [carregar_bases, hx, classifyRole, h1, h2'.1, h2'.2, h3, dictSet]
  · intro h1
    simp [carregar_bases, hx, h1]

/-- Witness of c6_ambiguous_first_match at the ambiguous name
ativos_ferias.xlsx, which matches the ATIVOS and FERIAS hints at once. -/
theorem c6_ambiguous_first_match_witness :
    strEndsWith "ativos_ferias.xlsx" ".xlsx" = true ∧
    strContains "ATIVOS" (pyUpper "ativos_ferias.xlsx") = true ∧
    strContains "FERIAS" (pyUpper "ativos_ferias.xlsx") = true ∧
    carregar_bases (some [("ativos_ferias.xlsx", c6T)]) =
      [("ATIVOS", ⟨normalize_cols c6T.cols, c6T.rows⟩)] :=
  ⟨by decide, by decide, by decide,
    (c6_ambiguous_first_match "ativos_ferias.xlsx" c6T (by decide)).1 (by decide)⟩



theorem dictSet_any_self {α : Type} (l : List (String × α)) (k : String) (v : α) :
    (dictSet l k v).any (fun p => p.1 == k) = true := by
  unfold dictSet
  by_cases h : l.any (fun p => p.1 == k) = true
  · rw [if_pos h]
    rw [List.any_eq_true] at h ⊢
    obtain ⟨p, hp, hpk⟩ := h
    exact ⟨(k, v), List.mem_map.mpr ⟨p, hp, by simp [hpk]⟩, by simp⟩
  · rw [if_neg h, List.any_append]
    simp

theorem dictSet_any_mono {α : Type} {l : List (String × α)} {k' : String}
    (h : l.any (fun p => p.1 == k') = true) (k : String) (v : α) :
    (dictSet l k v).any (fun p => p.1 == k') = true := by
  unfold dictSet
  by_cases hk : l.any (fun p => p.1 == k) = true
  · rw [if_pos hk]
    rw [List.any_eq_true] at h ⊢
    obtain ⟨p, hp, hpk⟩ := h
    by_cases hpkk : (p.1 == k) = true
    · refine ⟨(k, v), List.mem_map.mpr ⟨p, hp, by simp [hpkk]⟩, ?_⟩
      have h1 : p.1 = k := by simpa using hpkk
      have h2 : p.1 = k' := by simpa using hpk
      simp [← h1, h2]
    · exact ⟨p, List.mem_map.mpr ⟨p, hp, by simp [hpkk]⟩, hpk⟩
  · rw [if_neg hk, List.any_append]
    simp [h]

theorem carregar_foldl_key (ρ : String) :
    ∀ (fs : List (String × Table)) (acc : List (String × Table)),
      ((∃ g ∈ fs, classifyRole (pyUpper g.1) = some ρ) ∨ acc.any (fun p => p.1 == ρ) = true) →
      ((fs.foldl (fun bases f =>
          match classifyRole (pyUpper f.1) with
          | some role => dictSet bases role ⟨normalize_cols f.2.cols, f.2.rows⟩
          | none => bases) acc).any (fun p => p.1 == ρ)) = true := by
  intro fs
  induction fs with
  | nil =>
    intro acc h
    rcases h with ⟨g, hg, _⟩ | h
    · cases hg
    · simpa using h
  | cons f fs ih =>
    intro acc h
    simp only [List.foldl_cons]
    cases hc : classifyRole (pyUpper f.1) with
    | some role =>
      rcases h with ⟨g, hg, hgr⟩ | h
      · rcases List.mem_cons.mp hg with hgf | hg'
        · rw [hgf, hc] at hgr
          have hro : role = ρ := by injection hgr
          subst hro
          exact ih _ (Or.inr (dictSet_any_self _ _ _))
        · exact ih _ (Or.inl ⟨g, hg', hgr⟩)
      · exact ih _ (Or.inr (dictSet_any_mono h _ _))
    | none =>
      rcases h with ⟨g, hg, hgr⟩ | h
      · rcases List.mem_cons.mp hg with hgf | hg'
        · rw [hgf, hc] at hgr
          cases hgr
        · exact ih _ (Or.inl ⟨g, hg', hgr⟩)
      · exact ih _ (Or.inr h)

/-- C10: for an existing directory whose xlsx filenames contain ativos and
desligados case-insensitively while no filename contains the accented férias,
the strict pre-check fails naming the FÉRIAS hint, although ingestion itself
assigns a file whose uppercased name contains FERIAS (and not ATIVOS) to the
vacation role. -/
theorem c10_accented_vacation_hint (files : List (String × Table))
    (hA : ∃ f ∈ files, strEndsWith (pyLower f.1) ".xlsx" = true ∧
      strContains "ativos" (pyLower f.1) = true)
    (hD : ∃ f ∈ files, strEndsWith (pyLower f.1) ".xlsx" = true ∧
      strContains "desligados" (pyLower f.1) = true)
    (hF : ∀ f ∈ files, strContains "férias" (pyLower f.1) = false)
    (hG : ∃ g ∈ files, strEndsWith g.1 ".xlsx" = true ∧
      strContains "FERIAS" (pyUpper g.1) = true ∧ strContains "ATIVOS" (pyUpper g.1) = false) :
    validate_input_dir (some files) = .error (.missingHint "FÉRIAS") ∧
    (carregar_bases (some files)).any (fun p => p.1 == "FERIAS") = true := by
  constructor
  · have hAany : ((files.map (fun f => pyLower f.1)).filter (fun f => strEndsWith f ".xlsx")).any
        (fun f => strContains (pyLower "ATIVOS") f) = true := by
      obtain ⟨f, hf, hend, hcont⟩ := hA
      rw [List.any_eq_true]
      refine ⟨pyLower f.1, List.mem_filter.mpr ⟨List.mem_map.mpr ⟨f, hf, rfl⟩, hend⟩, ?_⟩
      rw [show pyLower "ATIVOS" = "ativos" by decide]
      exact hcont
    have hDany : ((files.map (fun f => pyLower f.1)).filter (fun f => strEndsWith f ".xlsx")).any
        (fun f => strContains (pyLower "DESLIGADOS") f) = true := by
      obtain ⟨f, hf, hend, hcont⟩ := hD
      rw [List.any_eq_true]
      refine ⟨pyLower f.1, List.mem_filter.mpr ⟨List.mem_map.mpr ⟨f, hf, rfl⟩, hend⟩, ?_⟩
      rw [show pyLower "DESLIGADOS" = "desligados" by decide]
      exact hcont
    have hFany : ((files.map (fun f => pyLower f.1)).filter (fun f => strEndsWith f ".xlsx")).any
        (fun f => strContains (pyLower "FÉRIAS") f) = false := by
      rw [List.any_eq_false]
      intro x hx
      obtain ⟨f, hf, rfl⟩ := List.mem_map.mp (List.mem_of_mem_filter hx)
      rw [show pyLower "FÉRIAS" = "férias" by decide]
      simp [hF f hf]
    show hintsLoop ((files.map (fun f => pyLower f.1)).filter (fun f => strEndsWith f ".xlsx"))
      requiredFileHints = .error (.missingHint "FÉRIAS")
    unfold requiredFileHints
    unfold hintsLoop
    rw [if_pos hAany]
    unfold hintsLoop
    rw [if_pos hDany]
    unfold hintsLoop
    rw [if_neg (by simp [hFany])]
  · unfold carregar_bases
    apply carregar_foldl_key
    left
    obtain ⟨g, hg, hend, hferias, hativos⟩ := hG
    refine ⟨g, List.mem_filter.mpr ⟨hg, hend⟩, ?_⟩
    unfold classifyRole
    rw [if_neg (by simp [hativos]), if_pos (by simp [hferias])]

/-- Witness of c10_accented_vacation_hint: a directory with ativos.xlsx,
desligados.xlsx and the unaccented ferias.xlsx. -/
theorem c10_accented_vacation_hint_witness :
    validate_input_dir (some c10Files) = .error (.missingHint "FÉRIAS") ∧
    (carregar_bases (some c10Files)).any (fun p => p.1 == "FERIAS") = true :=
  c10_accented_vacation_hint c10Files
    ⟨("ativos.xlsx", Table.emptyTable), by decide, by decide, by decide⟩
    ⟨("desligados.xlsx", Table.emptyTable), by decide, by decide, by decide⟩
    (by decide)
    ⟨("ferias.xlsx", Table.emptyTable), by decide, by decide, by decide, by decide⟩



/-- Counterexample to C2 as stated: a non-empty vacation table carrying
DIAS_DE_FERIAS but no MATRICULA makes the builder raise the KeyError of the
column selection ferias[[MATRICULA, DIAS_DE_FERIAS]] instead of defaulting
every row to DIAS = 22. -/
theorem c2_counterexample :
    montar_base_elegiveis c2BadBases (Contexto.mk 0 1 2 "integral") =
      .error "KeyError: MATRICULA not in ferias" := rfl

/-- C2 amended: days and total computation of the eligibility builder.  With
the vacation branch off (empty vacation table, missing DIAS_DE_FERIAS, or no
MATRICULA on the active table) every produced row has DIAS = 22 and
TOTAL = 660.  With the branch on, whenever the builder succeeds each produced
row carries the vacation cell it merged — a matching vacation record, or na
when no vacation row matches its MATRICULA — and DIAS is 22 on a missing
record, 22 - k on k recorded days with no clamping, with TOTAL = DIAS * 30 in
every case.  When the branch is on but the non-empty vacation table lacks
MATRICULA, the builder raises instead (see the counterexample). -/
theorem c2_days_total (bases : List (String × Table)) (ctx : Contexto) (base : Table)
    (hwfA : (getAtivos bases).wfB = true)
    (hok : montar_base_elegiveis bases ctx = .ok base) :
    (¬ ((getFerias bases).isEmptyDf = false ∧ "MATRICULA" ∈ (getAtivos bases).cols ∧
        "DIAS_DE_FERIAS" ∈ (getFerias bases).cols) →
      ∀ r ∈ base.rows, cell base.cols r "DIAS" = .num 22 ∧
        cell base.cols r "TOTAL" = .num 660) ∧
    (((getFerias bases).isEmptyDf = false ∧ "MATRICULA" ∈ (getAtivos bases).cols ∧
        "DIAS_DE_FERIAS" ∈ (getFerias bases).cols) →
      ∀ r ∈ base.rows,
        (cell base.cols r "DIAS_DE_FERIAS" = .na →
          cell base.cols r "DIAS" = .num 22 ∧ cell base.cols r "TOTAL" = .num 660) ∧
        (∀ k : ℚ, cell base.cols r "DIAS_DE_FERIAS" = .num k →
          cell base.cols r "DIAS" = .num (22 - k) ∧
          cell base.cols r "TOTAL" = .num ((22 - k) * 30)) ∧
        ((∃ m ∈ (getFerias bases).rows,
            cell (getFerias bases).cols m "MATRICULA" = cell base.cols r "MATRICULA" ∧
            cell base.cols r "DIAS_DE_FERIAS" = cell (getFerias bases).cols m "DIAS_DE_FERIAS") ∨
         ((∀ m ∈ (getFerias bases).rows,
            cell (getFerias bases).cols m "MATRICULA" ≠ cell base.cols r "MATRICULA") ∧
          cell base.cols r "DIAS_DE_FERIAS" = .na))) := by
  obtain ⟨t1, t2, h1, h2, rfl⟩ := montar_destruct hok
  obtain ⟨hcols1, hsub1, hwfF⟩ := excluir_ok_facts h1
  have hwf1 : t1.wfB = true := hwfF hwfA
  constructor
  · intro hg
    have hg' : ¬ ((getFerias bases).isEmptyDf = false ∧ "MATRICULA" ∈ t1.cols ∧
        "DIAS_DE_FERIAS" ∈ (getFerias bases).cols) := by
      rw [hcols1]
      exact hg
    rw [ajustar_guard_false hg'] at h2
    cases h2
    intro r hr
    obtain ⟨x2, hx2, hD, _, _, hT⟩ := finalizeBase_back (setCol_wfB hwf1) r hr
    obtain ⟨x1, hx1, hset, _⟩ := setCol_rows_back hwf1 x2 hx2
    have hd22 : cell (setCol t1 "DIAS" (fun _ => Val.num 22)).cols x2 "DIAS" = Val.num 22 := hset
    constructor
    · rw [hD, hd22]
    · rw [hT, hd22]
      show Val.num (22 * 30) = Val.num 660
      norm_num
  · intro hg
    have hg' : (getFerias bases).isEmptyDf = false ∧ "MATRICULA" ∈ t1.cols ∧
        "DIAS_DE_FERIAS" ∈ (getFerias bases).cols := by
      rw [hcols1]
      exact hg
    obtain ⟨hmf, hDDFa, hstr, ht2⟩ := ajustar_guard_true hg' h2
    subst ht2
    have hwfm : (mergeFerias t1 (getFerias bases)).wfB = true := mergeFerias_wfB hwf1
    intro r hr
    obtain ⟨x2, hx2, hD, hDf, hM, hT⟩ := finalizeBase_back (setCol_wfB hwfm) r hr
    obtain ⟨xm, hxm, hsD, hpres⟩ := setCol_rows_back hwfm x2 hx2
    have hrDf := hDf.trans (hpres "DIAS_DE_FERIAS" (by decide))
    have hrD := hD.trans hsD
    have hrM := hM.trans (hpres "MATRICULA" (by decide))
    rw [hsD] at hT
    refine ⟨?_, ?_, ?_⟩
    · intro hna
      rw [hrDf] at hna
      rw [hrD, hna, hT, hna]
      constructor
      · rfl
      · show Val.num (22 * 30) = Val.num 660
        norm_num
    · intro k hk
      rw [hrDf] at hk
      rw [hrD, hk, hT, hk]
      exact ⟨rfl, rfl⟩
    · obtain ⟨a, ha, hpm, hlink⟩ := mergeFerias_back hwf1 hDDFa xm hxm
      have hamat : cell (mergeFerias t1 (getFerias bases)).cols xm "MATRICULA" =
          cell t1.cols a "MATRICULA" := hpm "MATRICULA" (by decide)
      rcases hlink with ⟨hna, hnone⟩ | ⟨m, hm, hkey, hval⟩
      · refine Or.inr ⟨?_, by rw [hrDf, hna]⟩
        intro m hmm
        rw [hrM, hamat]
        exact hnone m hmm
      · refine Or.inl ⟨m, hm, ?_, by rw [hrDf, hval]⟩
        rw [hrM, hamat]
        exact hkey

/-- Witness of c2_days_total: the vacation branch over a concrete mapping
where employee 1 has no vacation record and employee 2 has thirty days. -/
theorem c2_days_total_witness :
    (getAtivos c2WBases).wfB = true ∧
    ∃ base, montar_base_elegiveis c2WBases (Contexto.mk 0 1 2 "integral") = .ok base ∧
      ∀ r ∈ base.rows,
        (cell base.cols r "DIAS_DE_FERIAS" = .na →
          cell base.cols r "DIAS" = .num 22 ∧ cell base.cols r "TOTAL" = .num 660) ∧
        (∀ k : ℚ, cell base.cols r "DIAS_DE_FERIAS" = .num k →
          cell base.cols r "DIAS" = .num (22 - k) ∧
          cell base.cols r "TOTAL" = .num ((22 - k) * 30)) ∧
        ((∃ m ∈ (getFerias c2WBases).rows,
            cell (getFerias c2WBases).cols m "MATRICULA" = cell base.cols r "MATRICULA" ∧
            cell base.cols r "DIAS_DE_FERIAS" = cell (getFerias c2WBases).cols m "DIAS_DE_FERIAS") ∨
         ((∀ m ∈ (getFerias c2WBases).rows,
            cell (getFerias c2WBases).cols m "MATRICULA" ≠ cell base.cols r "MATRICULA") ∧
          cell base.cols r "DIAS_DE_FERIAS" = .na)) := by
  refine ⟨by decide, _, rfl, ?_⟩
  exact (c2_days_total c2WBases (Contexto.mk 0 1 2 "integral") _ (by decide) rfl).2 (by decide)

/-- Counterexample to C3 as stated: a non-empty terminated table without a
MATRICULA column makes the builder raise the KeyError of selecting
desligados[MATRICULA] instead of keeping all active rows. -/
theorem c3_counterexample :
    montar_base_elegiveis c3BadBases (Contexto.mk 0 1 2 "integral") =
      .error "KeyError: MATRICULA not in desligados" := rfl

/-- C3 amended: when the terminated table is non-empty and both it and the
active table expose MATRICULA, the eligibility table contains no row whose
MATRICULA is a terminated key and retains a row for every active row whose
MATRICULA is not; when the terminated table is empty or the active table
lacks MATRICULA, the exclusion step is the identity and every active row is
retained.  When the non-empty terminated table lacks MATRICULA while the
active table has it, the builder raises instead (see the counterexample). -/
theorem c3_exclusion (bases : List (String × Table)) (ctx : Contexto) (base : Table)
    (hwfA : (getAtivos bases).wfB = true)
    (hok : montar_base_elegiveis bases ctx = .ok base) :
    (((getDesligados bases).isEmptyDf = false ∧ "MATRICULA" ∈ (getAtivos bases).cols) →
      (∀ r ∈ base.rows, cell base.cols r "MATRICULA" ∉
          (getDesligados bases).rows.map
            (fun x => cell (getDesligados bases).cols x "MATRICULA")) ∧
      (∀ a ∈ (getAtivos bases).rows,
        cell (getAtivos bases).cols a "MATRICULA" ∉
          (getDesligados bases).rows.map
            (fun x => cell (getDesligados bases).cols x "MATRICULA") →
        ∃ r ∈ base.rows,
          cell base.cols r "MATRICULA" = cell (getAtivos bases).cols a "MATRICULA")) ∧
    (¬ ((getDesligados bases).isEmptyDf = false ∧ "MATRICULA" ∈ (getAtivos bases).cols) →
      excluirDesligados (getAtivos bases) (getDesligados bases) = .ok (getAtivos bases) ∧
      ∀ a ∈ (getAtivos bases).rows,
        ∃ r ∈ base.rows,
          cell base.cols r "MATRICULA" = cell (getAtivos bases).cols a "MATRICULA") := by
  obtain ⟨t1, t2, h1, h2, rfl⟩ := montar_destruct hok
  obtain ⟨hcols1, hsub1, hwfF⟩ := excluir_ok_facts h1
  have hwf1 : t1.wfB = true := hwfF hwfA
  have hwf2 : t2.wfB = true := ajustar_ok_wfB hwf1 h2
  constructor
  · intro hg
    obtain ⟨hmd, hrows1⟩ := excluir_guard_true hg h1
    constructor
    · intro r hr
      obtain ⟨x2, hx2, _, _, hM, _⟩ := finalizeBase_back hwf2 r hr
      obtain ⟨a1, ha1, hpres⟩ := ajustar_back hwf1 h2 x2 hx2
      have hMa : cell t2.cols x2 "MATRICULA" = cell t1.cols a1 "MATRICULA" :=
        hpres "MATRICULA" (by decide) (by decide)
      rw [hM, hMa]
      rw [hrows1] at ha1
      have := List.mem_filter.mp ha1
      have hmem := this.2
      rw [decide_eq_true_iff] at hmem
      rw [hcols1]
      exact hmem
    · intro a ha hnot
      have ha1 : a ∈ t1.rows := by
        rw [hrows1]
        refine List.mem_filter.mpr ⟨ha, ?_⟩
        rw [decide_eq_true_iff]
        exact hnot
      obtain ⟨x2, hx2, hpres⟩ := ajustar_fwd hwf1 h2 a ha1
      obtain ⟨r, hr, hM⟩ := finalizeBase_fwd hwf2 x2 hx2
      refine ⟨r, hr, ?_⟩
      rw [hM, hpres "MATRICULA" (by decide) (by decide), hcols1]
  · intro hg
    have hid := excluir_guard_false (a := getAtivos bases) (d := getDesligados bases) hg
    refine ⟨hid, ?_⟩
    have ht1 : t1 = getAtivos bases := by
      rw [hid] at h1
      injection h1 with h
      exact h.symm
    subst ht1
    intro a ha
    obtain ⟨x2, hx2, hpres⟩ := ajustar_fwd hwf1 h2 a ha
    obtain ⟨r, hr, hM⟩ := finalizeBase_fwd hwf2 x2 hx2
    refine ⟨r, hr, ?_⟩
    rw [hM, hpres "MATRICULA" (by decide) (by decide)]

/-- Witness of c3_exclusion: terminated employee 2 is removed and employee 1
is retained in a concrete run. -/
theorem c3_exclusion_witness :
    (getAtivos c3WBases).wfB = true ∧
    ((getDesligados c3WBases).isEmptyDf = false ∧ "MATRICULA" ∈ (getAtivos c3WBases).cols) ∧
    ∃ base, montar_base_elegiveis c3WBases (Contexto.mk 0 1 2 "integral") = .ok base ∧
      (∀ r ∈ base.rows, cell base.cols r "MATRICULA" ∉
          (getDesligados c3WBases).rows.map
            (fun x => cell (getDesligados c3WBases).cols x "MATRICULA")) ∧
      (∀ a ∈ (getAtivos c3WBases).rows,
        cell (getAtivos c3WBases).cols a "MATRICULA" ∉
          (getDesligados c3WBases).rows.map
            (fun x => cell (getDesligados c3WBases).cols x "MATRICULA") →
        ∃ r ∈ base.rows,
          cell base.cols r "MATRICULA" = cell (getAtivos c3WBases).cols a "MATRICULA") := by
  refine ⟨by decide, by decide, _, rfl, ?_⟩
  exact (c3_exclusion c3WBases (Contexto.mk 0 1 2 "integral") _ (by decide) rfl).1 (by decide)



theorem heal8020_facts {df : Table} (hwf : df.wfB = true) (hT : "TOTAL" ∈ df.cols) :
    "TOTAL" ∈ (heal8020 df).cols ∧ (heal8020 df).wfB = true ∧
    ∀ r ∈ (heal8020 df).rows, ∀ q : ℚ, cell (heal8020 df).cols r "TOTAL" = .num q →
      cell (heal8020 df).cols r "Custo empresa" = .num ((4/5) * q) ∧
      cell (heal8020 df).cols r "Desconto profissional" = .num ((1/5) * q) := by
  have hwfc : (withCusto df).wfB = true := setCol_wfB hwf
  unfold heal8020
  rw [if_pos hT]
  refine ⟨setCol_mem_mono (setCol_mem_mono hT), setCol_wfB hwfc, ?_⟩
  intro r hr q hq
  obtain ⟨y, hy, hdp, hpres⟩ := setCol_rows_back hwfc r hr
  obtain ⟨x, hx, hce, hpres2⟩ := setCol_rows_back (c := "Custo empresa")
    (f := fun r => Val.num ((4/5) * fill0 (cell df.cols r "TOTAL"))) hwf y hy
  have hyT : cell (withCusto df).cols y "TOTAL" = .num q := by
    have := hpres "TOTAL" (by decide)
    rw [← this]
    exact hq
  have hxT : cell df.cols x "TOTAL" = .num q := by
    have := hpres2 "TOTAL" (by decide)
    rw [← this]
    exact hyT
  constructor
  · have hyCE : cell (withCusto df).cols y "Custo empresa" =
        .num ((4/5) * fill0 (cell df.cols x "TOTAL")) := hce
    rw [hpres "Custo empresa" (by decide), hyCE, hxT]
    rfl
  · rw [hdp, hyT]
    rfl

theorem exportar_ok_shape {base : Table} {bases : List (String × Table)} {ctx : Contexto}
    {wbE : Workbook} (h : exportar_planilha base bases ctx = .ok wbE) :
    ∃ val, wbE = ("VR Mensal", base) :: (bases ++ [("Validações", val)]) := by
  unfold exportar_planilha at h
  split at h
  · cases h
  · rename_i val hval
    cases h
    exact ⟨val, by simp⟩

theorem aplicar_cons {aba : String} {df : Table} {rest : Workbook} :
    aplicar_80_20_no_arquivo ((aba, df) :: rest) =
      .ok ((aba, heal8020 df) ::
        rest.map (fun p => if p.1 == aba then (aba, heal8020 df) else p)) := by
  show Except.ok (dictSet ((aba, df) :: rest) aba (heal8020 df)) = _
  rw [dictSet_head_self]

/-- C1: after the generate tool completes — export followed by the 80/20
reinforcement on the first sheet — the first sheet of the produced workbook
has a TOTAL column, and every row whose TOTAL coerces to a number q carries
Custo empresa exactly 0.80 q and Desconto profissional exactly 0.20 q, so both
deviations are within the 0.01 tolerance. -/
theorem c1_cost_split_reinforced (d : Dir) (ctx : Contexto) (wb : Workbook)
    (hwf : dirWFB d = true) (h : gerar_vr_mensal_tool d ctx = .ok wb) :
    ∃ aba df, wb.head? = some (aba, df) ∧ "TOTAL" ∈ df.cols ∧
      ∀ r ∈ df.rows, ∀ q : ℚ, cell df.cols r "TOTAL" = .num q →
        ∃ ce dp : ℚ, cell df.cols r "Custo empresa" = .num ce ∧
          cell df.cols r "Desconto profissional" = .num dp ∧
          ce = (4/5) * q ∧ dp = (1/5) * q ∧
          |ce - (4/5) * q| ≤ (1/100 : ℚ) ∧ |dp - (1/5) * q| ≤ (1/100 : ℚ) := by
  unfold gerar_vr_mensal_tool at h
  split at h
  · cases h
  · split at h
    · cases h
    · rename_i base hbase
      split at h
      · cases h
      · rename_i wbE hwbE
        split at h
        · cases h
        · rename_i wb2 hwb2
          cases h
          obtain ⟨val, rfl⟩ := exportar_ok_shape hwbE
          have hwfA : (getAtivos (carregar_bases d)).wfB = true :=
            dictGet_wfB (carregar_bases_wfB hwf)
          obtain ⟨hbwf, hbT⟩ := montar_wfB hwfA hbase
          rw [aplicar_cons] at hwb2
          injection hwb2 with hwb
          subst hwb
          obtain ⟨hT2, _, hcells⟩ := heal8020_facts hbwf hbT
          refine ⟨"VR Mensal", heal8020 base, rfl, hT2, ?_⟩
          intro r hr q hq
          obtain ⟨hce, hdp⟩ := hcells r hr q hq
          refine ⟨(4/5) * q, (1/5) * q, hce, hdp, rfl, rfl, ?_, ?_⟩
          · simp
          · simp

/-- Witness of c1_cost_split_reinforced: the full pipeline on the concrete
directory c1Dir. -/
theorem c1_cost_split_reinforced_witness :
    dirWFB c1Dir = true ∧
    ∃ wb, gerar_vr_mensal_tool c1Dir (Contexto.mk 0 1 2 "integral") = .ok wb ∧
      ∃ aba df, wb.head? = some (aba, df) ∧ "TOTAL" ∈ df.cols ∧
        ∀ r ∈ df.rows, ∀ q : ℚ, cell df.cols r "TOTAL" = .num q →
          ∃ ce dp : ℚ, cell df.cols r "Custo empresa" = .num ce ∧
            cell df.cols r "Desconto profissional" = .num dp ∧
            ce = (4/5) * q ∧ dp = (1/5) * q ∧
            |ce - (4/5) * q| ≤ (1/100 : ℚ) ∧ |dp - (1/5) * q| ≤ (1/100 : ℚ) := by
  refine ⟨by decide, _, rfl, ?_⟩
  exact c1_cost_split_reinforced c1Dir (Contexto.mk 0 1 2 "integral") _ (by decide) rfl



theorem qabs_eq_abs (x : ℚ) : qabs x = |x| := by
  unfold qabs
  by_cases h : x < 0
  · rw [if_pos h, abs_of_neg h]
  · rw [if_neg h, abs_of_nonneg (le_of_not_lt h)]

theorem qmax_eq_max (a b : ℚ) : qmax a b = max a b := by
  unfold qmax
  by_cases h : a ≤ b
  · rw [if_pos h, max_eq_right h]
  · rw [if_neg h, max_eq_left (le_of_not_le h)]

theorem resolveSheet_of_find {wb : Workbook} {p : String × Table}
    (h : wb.find? (fun q => strContains "vr mensal" (pyLower q.1)) = some p) :
    resolveSheet wb = some p := by
  unfold resolveSheet
  rw [h]

theorem validar_no_heal {gerado modelo : Workbook} {vr : Option Workbook} {tol : ℚ}
    {am : String} {dm : Table} {ao : String} {dfo : Table}
    (hm : resolveSheet modelo = some (am, dm))
    (hg : resolveSheet gerado = some (ao, dfo))
    (hsplit : hasSplitCols dfo = true) :
    validar_conformidade_tool gerado modelo vr tol =
      .ok (finishValidar am (dm.cols.filter (fun c => decide (c ∉ dfo.cols)))
        (dfo.cols.filter (fun c => decide (c ∉ dm.cols))) gerado dfo vr tol) := by
  unfold validar_conformidade_tool
  simp only [hm, hg]
  rw [if_pos hsplit]

theorem finishValidar_fst (am : String) (fal ext : List String) (g : Workbook) (df : Table)
    (vr : Option Workbook) (tol : ℚ) :
    (finishValidar am fal ext g df vr tol).1 =
      ⟨am, fal, ext, (computeIssues df tol).1, (computeIssues df tol).2,
        negColsValidator df⟩ := rfl

theorem computeIssues_agg_none_iff {df : Table} {tol : ℚ} (hsplit : hasSplitCols df = true) :
    (computeIssues df tol).2 = none ↔
      (|sumColQ df "Custo empresa" - max 1 (sumColQ df "TOTAL") * (4/5)| ≤
          tol * max 1 (sumColQ df "TOTAL") ∧
       |sumColQ df "Desconto profissional" - max 1 (sumColQ df "TOTAL") * (1/5)| ≤
          tol * max 1 (sumColQ df "TOTAL")) := by
  unfold computeIssues
  rw [if_pos hsplit]
  simp only [qabs_eq_abs, qmax_eq_max]
  by_cases h1 : |sumColQ df "Custo empresa" - max 1 (sumColQ df "TOTAL") * (4/5)| ≤
      tol * max 1 (sumColQ df "TOTAL") <;>
    by_cases h2 : |sumColQ df "Desconto profissional" - max 1 (sumColQ df "TOTAL") * (1/5)| ≤
        tol * max 1 (sumColQ df "TOTAL") <;>
      simp [h1, h2]

/-- Counterexample to C4 as stated: on a sheet whose TOTAL sums to zero with
both cost-split sums exactly zero, the claimed acceptance predicate holds —
sums deviate by zero from 80 and 20 percent of the summed total — yet the
validator reports the aggregate check failed, because the source compares the
sums against 80 and 20 percent of max 1 (summed total). -/
theorem c4_counterexample :
    claimAggPass c4Df (1/100) ∧
    (validar_conformidade_tool c4Wb c4Wb none (1/100)).map (fun p => p.1.agg) =
      .ok (some (false, false)) := by
  have e1 : sumColQ c4Df "Custo empresa" = 0 := by
    simp [sumColQ, c4Df, cell, idxOf?, nthD, fill0, toNumericCoerce]
  have e2 : sumColQ c4Df "Desconto profissional" = 0 := by
    simp [sumColQ, c4Df, cell, idxOf?, nthD, fill0, toNumericCoerce]
  have e3 : sumColQ c4Df "TOTAL" = 0 := by
    simp [sumColQ, c4Df, cell, idxOf?, nthD, fill0, toNumericCoerce]
  constructor
  · unfold claimAggPass
    rw [e1, e2, e3]
    norm_num [show max (1 : ℚ) 0 = 1 from max_eq_left (by norm_num)]
  · have hagg : (computeIssues c4Df (1/100)).2 = some (false, false) := by
      unfold computeIssues
      rw [if_pos (by decide : hasSplitCols c4Df = true)]
      have hce : decide (qabs (sumColQ c4Df "Custo empresa" -
          qmax 1 (sumColQ c4Df "TOTAL") * (4/5)) ≤
          (1/100 : ℚ) * qmax 1 (sumColQ c4Df "TOTAL")) = false := by
        rw [e1, e3]
        norm_num [qmax, qabs]
      have hdp : decide (qabs (sumColQ c4Df "Desconto profissional" -
          qmax 1 (sumColQ c4Df "TOTAL") * (1/5)) ≤
          (1/100 : ℚ) * qmax 1 (sumColQ c4Df "TOTAL")) = false := by
        rw [e2, e3]
        norm_num [qmax, qabs]
      simp only [hce, hdp]
      rfl
    have hresg : resolveSheet c4Wb = some ("VR Mensal", c4Df) := rfl
    rw [validar_no_heal hresg hresg (by decide)]
    simp only [Except.map]
    rw [finishValidar_fst]
    simp only [hagg]

/-- C4 amended: for a generated sheet carrying the three numeric columns, the
aggregate cost-split check passes (no aggregate issue in the report) exactly
when the summed company cost and employee discount are within
tolerance times max 1 (summed TOTAL) of 80 and 20 percent of
max 1 (summed TOTAL) — the floored sum is also the comparison target, not
only the tolerance scale. -/
theorem c4_aggregate_check (gerado modelo : Workbook) (vr : Option Workbook) (tol : ℚ)
    (rep : Report) (wb1 : Workbook) (aba : String) (df : Table)
    (hg : resolveSheet gerado = some (aba, df))
    (hsplit : hasSplitCols df = true)
    (hrun : validar_conformidade_tool gerado modelo vr tol = .ok (rep, wb1)) :
    rep.agg = none ↔
      (|sumColQ df "Custo empresa" - max 1 (sumColQ df "TOTAL") * (4/5)| ≤
          tol * max 1 (sumColQ df "TOTAL") ∧
       |sumColQ df "Desconto profissional" - max 1 (sumColQ df "TOTAL") * (1/5)| ≤
          tol * max 1 (sumColQ df "TOTAL")) := by
  cases hm : resolveSheet modelo with
  | none =>
    unfold validar_conformidade_tool at hrun
    rw [hm] at hrun
    cases hrun
  | some pm =>
    obtain ⟨am, dm⟩ := pm
    rw [validar_no_heal hm hg hsplit] at hrun
    injection hrun with hrun'
    have hrep : (finishValidar am (dm.cols.filter (fun c => decide (c ∉ df.cols)))
        (df.cols.filter (fun c => decide (c ∉ dm.cols))) gerado df vr tol).1 = rep :=
      congrArg Prod.fst hrun'
    have hagg : rep.agg = (computeIssues df tol).2 := by
      rw [← hrep, finishValidar_fst]
    rw [hagg]
    exact computeIssues_agg_none_iff hsplit

/-- Witness of c4_aggregate_check: a validation run over a sheet with an
exact 80/20 split on a total of 100, whose aggregate check passes. -/
theorem c4_aggregate_check_witness :
    resolveSheet c4WWb = some ("VR Mensal", c4WDf) ∧ hasSplitCols c4WDf = true ∧
    ∃ rep wb1, validar_conformidade_tool c4WWb c4WWb none (1/100) = .ok (rep, wb1) ∧
      (rep.agg = none ↔
        (|sumColQ c4WDf "Custo empresa" - max 1 (sumColQ c4WDf "TOTAL") * (4/5)| ≤
            (1/100) * max 1 (sumColQ c4WDf "TOTAL") ∧
         |sumColQ c4WDf "Desconto profissional" - max 1 (sumColQ c4WDf "TOTAL") * (1/5)| ≤
            (1/100) * max 1 (sumColQ c4WDf "TOTAL"))) := by
  refine ⟨rfl, by decide, _, _, rfl, ?_⟩
  exact c4_aggregate_check c4WWb c4WWb none (1/100) _ _ "VR Mensal" c4WDf rfl (by decide) rfl

/-- Counterexample to C7 as stated: validating a workbook that lacks the
cost-split columns self-heals it, but the missing-columns list of the first
report is computed before the healing write, so the second run reports a
different (empty) missing list on the unchanged file. -/
theorem c7_counterexample :
    c7Run1.map (fun p => p.1.faltantes) = .ok ["Custo empresa", "Desconto profissional"] ∧
    c7Run2.map (fun p => p.1.faltantes) = .ok ([] : List String) := ⟨rfl, rfl⟩

/-- C7 amended: validator idempotence holds in the no-heal case — when the
resolved generated sheet already carries the three cost-split columns, a
second run on the workbook produced by the first returns the same report and
leaves the workbook unchanged.  When the first run self-heals, the second
run's missing and extra column lists can differ (see the counterexample),
because the first run computes them before writing the cost-split columns. -/
theorem c7_validator_idempotent (gerado modelo : Workbook) (vr : Option Workbook) (tol : ℚ)
    (aba : String) (df : Table)
    (hfind : gerado.find? (fun q => strContains "vr mensal" (pyLower q.1)) = some (aba, df))
    (hsplit : hasSplitCols df = true)
    (rep : Report) (wb1 : Workbook)
    (h1 : validar_conformidade_tool gerado modelo vr tol = .ok (rep, wb1)) :
    validar_conformidade_tool wb1 modelo vr tol = .ok (rep, wb1) := by
  cases hm : resolveSheet modelo with
  | none =>
    unfold validar_conformidade_tool at h1
    rw [hm] at h1
    cases h1
  | some pm =>
    obtain ⟨am, dm⟩ := pm
    have hg : resolveSheet gerado = some (aba, df) := resolveSheet_of_find hfind
    rw [validar_no_heal hm hg hsplit] at h1
    injection h1 with h1'
    have hrep : (finishValidar am (dm.cols.filter (fun c => decide (c ∉ df.cols)))
        (df.cols.filter (fun c => decide (c ∉ dm.cols))) gerado df vr tol).1 = rep :=
      congrArg Prod.fst h1'
    have hwb1 : (finishValidar am (dm.cols.filter (fun c => decide (c ∉ df.cols)))
        (df.cols.filter (fun c => decide (c ∉ dm.cols))) gerado df vr tol).2 = wb1 :=
      congrArg Prod.snd h1'
    have hwb1' : dictSet gerado "Validações" (resumoTable rep (refDetected vr)) = wb1 := by
      rw [← hrep]
      exact hwb1
    have hfind2 : wb1.find? (fun q => strContains "vr mensal" (pyLower q.1)) =
        some (aba, df) := by
      rw [← hwb1']
      exact (find?_fst_dictSet (l := gerado) (k := "Validações")
        (v := resumoTable rep (refDetected vr))
        (g := fun s => strContains "vr mensal" (pyLower s)) (by decide)).trans hfind
    have hg2 : resolveSheet wb1 = some (aba, df) := resolveSheet_of_find hfind2
    rw [validar_no_heal hm hg2 hsplit]
    have hfst : (finishValidar am (dm.cols.filter (fun c => decide (c ∉ df.cols)))
        (df.cols.filter (fun c => decide (c ∉ dm.cols))) wb1 df vr tol).1 = rep := by
      rw [← hrep]
      rfl
    have hsnd : (finishValidar am (dm.cols.filter (fun c => decide (c ∉ df.cols)))
        (df.cols.filter (fun c => decide (c ∉ dm.cols))) wb1 df vr tol).2 = wb1 := by
      show dictSet wb1 "Validações"
        (resumoTable (finishValidar am (dm.cols.filter (fun c => decide (c ∉ df.cols)))
          (df.cols.filter (fun c => decide (c ∉ dm.cols))) wb1 df vr tol).1
          (refDetected vr)) = wb1
      rw [hfst]
      conv_lhs => rw [← hwb1']
      rw [dictSet_idem]
      exact hwb1'
    exact congrArg Except.ok (Prod.ext hfst hsnd)

/-- Witness of c7_validator_idempotent: two identical validation runs over a
workbook whose sheet already carries the exact 80/20 columns. -/
theorem c7_validator_idempotent_witness :
    c7WGen.find? (fun q => strContains "vr mensal" (pyLower q.1)) =
      some ("VR Mensal", c7WDf) ∧
    hasSplitCols c7WDf = true ∧
    ∃ rep wb1, validar_conformidade_tool c7WGen c7WGen none (1/100) = .ok (rep, wb1) ∧
      validar_conformidade_tool wb1 c7WGen none (1/100) = .ok (rep, wb1) := by
  refine ⟨rfl, by decide, _, _, rfl, ?_⟩
  exact c7_validator_idempotent c7WGen c7WGen none (1/100) "VR Mensal" c7WDf rfl
    (by decide) _ _ rfl


end VRSpec
